import Mathlib

/-!
# DevDash MCP bridge, shallow embedding

A verification development for the DevDash MCP server
(`src/tools/mcp/devdash_mcp/server.py`).  The server is a protocol bridge:
`list_tools` enumerates five tool definitions, and `call_tool` dispatches a
tool invocation to the DevTools HTTP API and converts the response (or any
failure) into a list of content blocks.

The embedding models:

* JSON values (`Json`), Python's `json.dumps(data, indent=2)` serialization
  (`Json.dumps`) and `json.loads`-style parsing (`Json.parse`).  Numbers are
  modelled as integers; bodies whose numbers carry fractions or exponents are
  treated as unparseable by the model (floating point is out of scope).
* the backend HTTP exchange as a function from the issued request to an
  outcome (`HttpResult`): a status/body response, a connection error
  (`httpx.ConnectError`), or any other exception (`str(e)` carried as a
  message).
* `call_tool` as a pure function returning both the content blocks and the
  list of backend requests it issued, so that claims about "no backend call
  is made" are directly statable.
-/

/-! ## JSON values -/

/-- A JSON value.  Numbers are modelled as integers (the bodies exercised by
the bridge's claims are integer-valued; Python floats are outside the model).
Objects are ordered association lists, mirroring the insertion order that
the Python `dict` preserves. -/
inductive Json where
  | null : Json
  | bool (b : Bool) : Json
  | num (n : Int) : Json
  | str (s : String) : Json
  | arr (items : List Json) : Json
  | obj (fields : List (String × Json)) : Json
deriving Repr

/-! ## Serialization: the model of `json.dumps(data, indent=2)`

The Python encoder with `indent=2` and `ensure_ascii=True` (the default) prints
empty containers inline, puts every item on its own line indented two spaces
deeper than the container, separates items with a comma, separates keys from
values with a colon and one space, and escapes every character outside
`0x20`..`0x7e` of a string (astral characters as a UTF-16 surrogate pair). -/

/-- Decimal digit characters of `n`, most significant first. -/
def natChars (n : Nat) : List Char :=
  if h : n < 10 then [Char.ofNat (48 + n)]
  else natChars (n / 10) ++ [Char.ofNat (48 + n % 10)]
termination_by n
decreasing_by exact Nat.div_lt_self (by omega) (by omega)

/-- The characters of `str(i)` for a Python integer. -/
def intChars (i : Int) : List Char :=
  match i with
  | Int.ofNat m => natChars m
  | Int.negSucc m => '-' :: natChars (m + 1)

/-- Lower-case hexadecimal digit for `d < 16`. -/
def hexChar (d : Nat) : Char :=
  if d < 10 then Char.ofNat (48 + d) else Char.ofNat (87 + d)

/-- A `\uXXXX` escape (four lower-case hex digits), as Python emits it. -/
def uEsc (n : Nat) : List Char :=
  ['\\', 'u', hexChar (n / 4096 % 16), hexChar (n / 256 % 16),
   hexChar (n / 16 % 16), hexChar (n % 16)]

/-- One character of a JSON string, escaped the way the Python
`json.dumps` encoder (with `ensure_ascii=True`) escapes it: the two-character short
escapes for quote, backslash and the five named control characters, `\uXXXX`
for every other character outside `0x20`..`0x7e`, and a UTF-16 surrogate pair
of `\uXXXX` escapes for astral characters. -/
def escapeChar (c : Char) : List Char :=
  if c = '"' then ['\\', '"']
  else if c = '\\' then ['\\', '\\']
  else if c = '\n' then ['\\', 'n']
  else if c = '\r' then ['\\', 'r']
  else if c = '\t' then ['\\', 't']
  else if c = Char.ofNat 8 then ['\\', 'b']
  else if c = Char.ofNat 12 then ['\\', 'f']
  else if c.toNat < 32 ∨ 126 < c.toNat then
    if c.toNat < 65536 then uEsc c.toNat
    else uEsc (55296 + (c.toNat - 65536) / 1024) ++ uEsc (56320 + (c.toNat - 65536) % 1024)
  else [c]

/-- Escape every character of a string body. -/
def escapeAll : List Char → List Char
  | [] => []
  | c :: cs => escapeChar c ++ escapeAll cs

/-- A JSON string literal: quote, escaped body, quote. -/
def strQuote (s : String) : List Char := '"' :: (escapeAll s.data ++ ['"'])

/-- Indentation: `n` spaces. -/
def pad (n : Nat) : List Char := List.replicate n ' '

mutual
/-- Characters of `json.dumps(v, indent=2)` when the value starts at
indentation level `ind`. -/
def dumpAux (ind : Nat) : Json → List Char
  | Json.null => ['n', 'u', 'l', 'l']
  | Json.bool true => ['t', 'r', 'u', 'e']
  | Json.bool false => ['f', 'a', 'l', 's', 'e']
  | Json.num i => intChars i
  | Json.str s => strQuote s
  | Json.arr [] => ['[', ']']
  | Json.arr (x :: xs) =>
      '[' :: '\n' :: (pad (ind + 2) ++ (dumpAux (ind + 2) x ++
        (dumpItems (ind + 2) xs ++ ('\n' :: (pad ind ++ [']'])))))
  | Json.obj [] => ['{', '}']
  | Json.obj ((k, v) :: fs) =>
      '{' :: '\n' :: (pad (ind + 2) ++ (strQuote k ++ (':' :: ' ' ::
        (dumpAux (ind + 2) v ++ (dumpFields (ind + 2) fs ++
          ('\n' :: (pad ind ++ ['}'])))))))
/-- The remaining items of a non-empty array: a comma, a newline, the
indentation, the item — repeated. -/
def dumpItems (ind : Nat) : List Json → List Char
  | [] => []
  | x :: xs => ',' :: '\n' :: (pad ind ++ (dumpAux ind x ++ dumpItems ind xs))
/-- The remaining fields of a non-empty object. -/
def dumpFields (ind : Nat) : List (String × Json) → List Char
  | [] => []
  | (k, v) :: fs =>
      ',' :: '\n' :: (pad ind ++ (strQuote k ++ (':' :: ' ' ::
        (dumpAux ind v ++ dumpFields ind fs))))
end

/-- The model of `json.dumps(v, indent=2)`. -/
def Json.dumps (v : Json) : String := String.mk (dumpAux 0 v)

/-! ## Parsing: the model of `json.loads` / `response.json()` -/

/-- JSON insignificant whitespace (the Python `json` module skips exactly
space, tab, newline and carriage return). -/
def isWsCh (c : Char) : Bool := c = ' ' || c = '\t' || c = '\n' || c = '\r'

/-- Drop leading JSON whitespace. -/
def dropWs : List Char → List Char
  | [] => []
  | c :: cs => if isWsCh c then dropWs cs else c :: cs

/-- Decimal digit test. -/
def isDigitCh (c : Char) : Bool := 48 ≤ c.toNat && c.toNat ≤ 57

/-- Take the maximal leading run of decimal digits. -/
def grabDigits : List Char → List Char × List Char
  | [] => ([], [])
  | c :: cs =>
      if isDigitCh c then
        let p := grabDigits cs
        (c :: p.1, p.2)
      else ([], c :: cs)

/-- Numeric value of a digit run, most significant first. -/
def digitsVal (ds : List Char) : Nat :=
  ds.foldl (fun a c => a * 10 + (c.toNat - 48)) 0

/-- Input that cannot extend a rendered integer: empty, or headed by a
character that is neither a digit nor `.`, `e`, `E`.  Every continuation the
serializer produces after a number (a comma, a newline, a closing bracket or
brace, end of input) satisfies it. -/
def numStop : List Char → Bool
  | [] => true
  | c :: _ => !(isDigitCh c || c = '.' || c = 'e' || c = 'E')

/-- Value of one hexadecimal digit character. -/
def hexCharVal (c : Char) : Option Nat :=
  if 48 ≤ c.toNat && c.toNat ≤ 57 then some (c.toNat - 48)
  else if 97 ≤ c.toNat && c.toNat ≤ 102 then some (c.toNat - 87)
  else if 65 ≤ c.toNat && c.toNat ≤ 70 then some (c.toNat - 55)
  else none

/-- Value of a four-hex-digit group. -/
def hexQuad (a b c d : Char) : Option Nat :=
  match hexCharVal a, hexCharVal b, hexCharVal c, hexCharVal d with
  | some x, some y, some z, some w => some (((x * 16 + y) * 16 + z) * 16 + w)
  | _, _, _, _ => none

/-- The character denoted by a single-letter escape, as in the Python scanner. -/
def simpleEscChar (e : Char) : Option Char :=
  if e = '"' then some '"'
  else if e = '\\' then some '\\'
  else if e = '/' then some '/'
  else if e = 'b' then some (Char.ofNat 8)
  else if e = 'f' then some (Char.ofNat 12)
  else if e = 'n' then some '\n'
  else if e = 'r' then some '\r'
  else if e = 't' then some '\t'
  else none

/-- Prepend a decoded character to the pending string-parse result. -/
def consHd (c : Char) (r : Option (List Char × List Char)) :
    Option (List Char × List Char) :=
  r.map (fun p => (c :: p.1, p.2))

mutual
/-- Parse the body of a JSON string after the opening quote, strict mode:
raw control characters are rejected, escapes are decoded, and a high
surrogate escape must be followed by a low surrogate escape (Python combines
the pair into one scalar value).  Returns the decoded characters and the
input after the closing quote. -/
def readStrChars : List Char → Option (List Char × List Char)
  | [] => none
  | c :: rest =>
      if c = '"' then some ([], rest)
      else if c = '\\' then readEscapeTail rest
      else if c.toNat < 32 then none
      else consHd c (readStrChars rest)
/-- Parse what follows a backslash inside a string. -/
def readEscapeTail : List Char → Option (List Char × List Char)
  | [] => none
  | e :: rest2 =>
      if e = 'u' then readUEscape rest2
      else
        match simpleEscChar e with
        | some ch => consHd ch (readStrChars rest2)
        | none => none
/-- Parse the four hex digits of a `\uXXXX` escape; a high surrogate value
must be completed by a following low surrogate escape. -/
def readUEscape : List Char → Option (List Char × List Char)
  | a :: b :: cc :: d :: rest3 =>
      match hexQuad a b cc d with
      | none => none
      | some n =>
          if n < 55296 ∨ 57343 < n then consHd (Char.ofNat n) (readStrChars rest3)
          else if n < 56320 then readLowSurrogate n rest3
          else none
  | _ => none
/-- Parse the `\uXXXX` low-surrogate escape completing high surrogate `n`,
combining the pair into one scalar value. -/
def readLowSurrogate : Nat → List Char → Option (List Char × List Char)
  | n, e1 :: e2 :: a2 :: b2 :: c2 :: d2 :: rest4 =>
      if e1 = '\\' ∧ e2 = 'u' then
        match hexQuad a2 b2 c2 d2 with
        | none => none
        | some m =>
            if 56320 ≤ m ∧ m ≤ 57343 then
              consHd (Char.ofNat (65536 + (n - 55296) * 1024 + (m - 56320)))
                (readStrChars rest4)
            else none
      else none
  | _, _ => none
end

/-- Parse an unsigned JSON integer: no leading zeros, and reject a following
fraction or exponent (a body with a non-integer number is outside the model). -/
def readNat : List Char → Option (Nat × List Char)
  | [] => none
  | c :: rest =>
      if c = '0' then
        match rest with
        | d :: _ =>
            if isDigitCh d || d = '.' || d = 'e' || d = 'E' then none
            else some (0, rest)
        | [] => some (0, [])
      else if isDigitCh c then
        let p := grabDigits rest
        match p.2 with
        | d :: _ =>
            if d = '.' || d = 'e' || d = 'E' then none
            else some (digitsVal (c :: p.1), p.2)
        | [] => some (digitsVal (c :: p.1), [])
      else none

/-- Parse a JSON integer with its optional sign. -/
def readNumber : List Char → Option (Int × List Char)
  | [] => none
  | c :: rest =>
      if c = '-' then (readNat rest).map (fun p => (-(p.1 : Int), p.2))
      else (readNat (c :: rest)).map (fun p => ((p.1 : Int), p.2))

mutual
/-- Parse one JSON value (after skipping leading whitespace).  Structurally
recursive on `fuel`; `Json.parse` supplies one unit of fuel per input
character plus one, which the round-trip theorem shows is sufficient for
serializer output. -/
def readValue : Nat → List Char → Option (Json × List Char)
  | 0, _ => none
  | fuel + 1, cs =>
      match dropWs cs with
      | [] => none
      | c :: rest =>
          if c = 'n' then
            match rest with
            | x1 :: x2 :: x3 :: r =>
                if x1 = 'u' ∧ x2 = 'l' ∧ x3 = 'l' then some (Json.null, r) else none
            | _ => none
          else if c = 't' then
            match rest with
            | x1 :: x2 :: x3 :: r =>
                if x1 = 'r' ∧ x2 = 'u' ∧ x3 = 'e' then some (Json.bool true, r) else none
            | _ => none
          else if c = 'f' then
            match rest with
            | x1 :: x2 :: x3 :: x4 :: r =>
                if x1 = 'a' ∧ x2 = 'l' ∧ x3 = 's' ∧ x4 = 'e' then
                  some (Json.bool false, r)
                else none
            | _ => none
          else if c = '"' then
            (readStrChars rest).map (fun p => (Json.str (String.mk p.1), p.2))
          else if c = '[' then
            match dropWs rest with
            | c2 :: r =>
                if c2 = ']' then some (Json.arr [], r)
                else (readItems fuel (c2 :: r)).map (fun p => (Json.arr p.1, p.2))
            | [] => (readItems fuel []).map (fun p => (Json.arr p.1, p.2))
          else if c = '{' then
            match dropWs rest with
            | c2 :: r =>
                if c2 = '}' then some (Json.obj [], r)
                else (readPairs fuel (c2 :: r)).map (fun p => (Json.obj p.1, p.2))
            | [] => (readPairs fuel []).map (fun p => (Json.obj p.1, p.2))
          else if c = '-' ∨ isDigitCh c then
            (readNumber (c :: rest)).map (fun p => (Json.num p.1, p.2))
          else none
/-- Parse the one-or-more comma-separated items of a non-empty array, up to
and including the closing bracket. -/
def readItems : Nat → List Char → Option (List Json × List Char)
  | 0, _ => none
  | fuel + 1, cs =>
      match readValue fuel cs with
      | none => none
      | some (v, r) =>
          match dropWs r with
          | c2 :: r2 =>
              if c2 = ',' then (readItems fuel r2).map (fun p => (v :: p.1, p.2))
              else if c2 = ']' then some ([v], r2)
              else none
          | [] => none
/-- Parse the one-or-more `"key": value` pairs of a non-empty object, up to
and including the closing brace. -/
def readPairs : Nat → List Char → Option (List (String × Json) × List Char)
  | 0, _ => none
  | fuel + 1, cs =>
      match dropWs cs with
      | [] => none
      | c0 :: r =>
          if c0 = '"' then
            match readStrChars r with
            | none => none
            | some (kcs, r1) =>
                match dropWs r1 with
                | [] => none
                | c1 :: r2 =>
                    if c1 = ':' then
                      match readValue fuel r2 with
                      | none => none
                      | some (v, r3) =>
                          match dropWs r3 with
                          | [] => none
                          | c3 :: r4 =>
                              if c3 = ',' then
                                (readPairs fuel r4).map
                                  (fun p => ((String.mk kcs, v) :: p.1, p.2))
                              else if c3 = '}' then some ([(String.mk kcs, v)], r4)
                              else none
                    else none
          else none
end

/-- The model of `json.loads` (hence of `response.json()`): parse one value
and require that only whitespace remains. -/
def Json.parse (s : String) : Option Json :=
  match readValue (s.data.length + 1) s.data with
  | some (v, r) => if dropWs r = [] then some v else none
  | none => none

/-! ## Base64, for the screenshot image payload -/

/-- The base64 alphabet. -/
def b64Char (n : Nat) : Char :=
  "ABCDEFGHIJKLMNOPQRSTUVWXYZabcdefghijklmnopqrstuvwxyz0123456789+/".data.getD n 'A'

/-- Standard base64 with `=` padding, the model of `base64.b64encode`. -/
def base64Chars : List UInt8 → List Char
  | [] => []
  | [a] =>
      let x := a.toNat
      [b64Char (x / 4), b64Char (x % 4 * 16), '=', '=']
  | [a, b] =>
      let x := a.toNat * 256 + b.toNat
      [b64Char (x / 1024), b64Char (x / 16 % 64), b64Char (x % 16 * 4), '=']
  | a :: b :: c :: rest =>
      let x := a.toNat * 65536 + b.toNat * 256 + c.toNat
      b64Char (x / 262144) :: b64Char (x / 4096 % 64) :: b64Char (x / 64 % 64) ::
        b64Char (x % 64) :: base64Chars rest

/-- The model of `base64.b64encode(data).decode("utf-8")` on a body held as a string. -/
def base64Encode (body : String) : String :=
  String.mk (base64Chars body.toUTF8.toList)

/-! ## The content model and the backend exchange -/

/-- The `mcp.types` content blocks the server produces: `TextContent` and
`ImageContent`. -/
inductive ContentBlock where
  | text (text : String) : ContentBlock
  | image (data : String) (mimeType : String) : ContentBlock
deriving DecidableEq, Repr

/-- An outgoing `client.get(url, params=...)` call: the URL and the query
parameters (an integer parameter is carried as its decimal string, the form
it takes on the wire). -/
structure BackendRequest where
  url : String
  params : List (String × String) := []
deriving DecidableEq, Repr

/-- What one `client.get` comes to, seen from the `try` block of `call_tool`:
a response with a status and body, an `httpx.ConnectError`, or any other
exception with its `str(e)` text (timeouts and the like). -/
inductive HttpResult where
  | response (status : Nat) (body : String) : HttpResult
  | connectError : HttpResult
  | otherFailure (msg : String) : HttpResult
deriving DecidableEq, Repr

/-- The condition `response.is_success`, under which
`response.raise_for_status()` does not raise: a 2xx status. -/
def isSuccessStatus (status : Nat) : Bool := 200 ≤ status && status < 300

/-- The `arguments` mapping of a tool invocation, restricted to the keys the
server reads.  `none` models an absent key; `call_tool` reads nothing else
from the mapping. -/
structure ToolArguments where
  count : Option Int := none
  level : Option String := none
  category : Option String := none
  window : Option String := none
deriving DecidableEq, Repr

/-- The empty argument mapping. -/
def noArguments : ToolArguments := {}

/-- The constant `DEVTOOLS_BASE_URL` from the source. -/
def DEVTOOLS_BASE_URL : String := "http://127.0.0.1:18080"

/-- The connect-failure message (the `except httpx.ConnectError` branch). -/
def cannotConnectText : String :=
  "Error: Cannot connect to DevDash. Make sure DevDash is running with DevTools server enabled."

/-- The short-circuit message for a missing or empty `window` argument. -/
def windowRequiredText : String := "Error: \x27window\x27 parameter is required"

/-- Stand-in for `str(e)` of a `json.JSONDecodeError`.  The Python text
depends on the error position; the model carries the initial-position
message, and no claim depends on this text (only on the block being text). -/
def jsonDecodeFailureText : String := "Expecting value: line 1 column 1 (char 0)"

/-! ## The tool catalog (`list_tools`) -/

/-- One property of the JSON-schema `inputSchema` of a tool.  The `default` field
holds the schema-declared default value manifest in the source. -/
structure PropertySchema where
  type : String
  description : String
  default : Option Json := none
  enum : Option (List String) := none
deriving Repr

/-- The `inputSchema` of a tool. -/
structure InputSchema where
  type : String
  properties : List (String × PropertySchema) := []
  required : List String := []
deriving Repr

/-- An `mcp.types.Tool` record as the server builds it. -/
structure Tool where
  name : String
  description : String
  inputSchema : InputSchema
deriving Repr

/-- The catalog returned by `list_tools`, in the declaration order of the
source.  A pure constant: every call returns the same ordered sequence. -/
def list_tools : List Tool :=
  [ { name := "devdash_get_state",
      description := "Get current telemetry state from DevDash (RPM, speed, temperatures, etc.)",
      inputSchema := { type := "object", properties := [], required := [] } },
    { name := "devdash_get_warnings",
      description := "Get active warnings and critical alerts from DevDash",
      inputSchema := { type := "object", properties := [], required := [] } },
    { name := "devdash_screenshot",
      description := "Capture PNG screenshot of a DevDash window",
      inputSchema :=
        { type := "object",
          properties :=
            [("window",
              { type := "string",
                description := "Window name to capture (e.g., \x27cluster\x27, \x27headunit\x27)" })],
          required := ["window"] } },
    { name := "devdash_list_windows",
      description := "List available DevDash windows for screenshot capture",
      inputSchema := { type := "object", properties := [], required := [] } },
    { name := "devdash_get_logs",
      description := "Retrieve recent application logs from DevDash with filtering by level and category",
      inputSchema :=
        { type := "object",
          properties :=
            [("count",
              { type := "integer",
                description := "Number of log entries to retrieve (max 1000, default 100)",
                default := some (Json.num 100) }),
             ("level",
              { type := "string",
                description := "Minimum log level to include (debug, info, warning, critical)",
                enum := some ["debug", "info", "warning", "critical"],
                default := some (Json.str "info") }),
             ("category",
              { type := "string",
                description := "Filter by category (e.g., \x27devdash.broker\x27, \x27devdash.adapter\x27)",
                default := some (Json.str "") })],
          required := [] } } ]

/-! ## The dispatcher (`call_tool`) -/

/-- The query parameters `call_tool` builds for `devdash_get_logs`: `count`
(clamped by `min(count, 1000)`) and `level` when the keys are present, and
`category` only when present and truthy (non-empty). -/
def logsParams (arguments : ToolArguments) : List (String × String) :=
  (match arguments.count with
   | some c => [("count", toString (min c 1000))]
   | none => []) ++
  (match arguments.level with
   | some l => [("level", l)]
   | none => []) ++
  (match arguments.category with
   | some cat => if cat = "" then [] else [("category", cat)]
   | none => [])

/-- The request of the `devdash_get_state` branch. -/
def stateRequest : BackendRequest := { url := DEVTOOLS_BASE_URL ++ "/api/state" }

/-- The request of the `devdash_get_warnings` branch. -/
def warningsRequest : BackendRequest := { url := DEVTOOLS_BASE_URL ++ "/api/warnings" }

/-- The request of the `devdash_list_windows` branch. -/
def windowsRequest : BackendRequest := { url := DEVTOOLS_BASE_URL ++ "/api/windows" }

/-- The request of the `devdash_get_logs` branch. -/
def logsRequest (arguments : ToolArguments) : BackendRequest :=
  { url := DEVTOOLS_BASE_URL ++ "/api/logs", params := logsParams arguments }

/-- The request of the `devdash_screenshot` branch for window `w`. -/
def screenshotRequest (w : String) : BackendRequest :=
  { url := DEVTOOLS_BASE_URL ++ "/api/screenshot", params := [("window", w)] }

/-- The JSON-endpoint pattern shared verbatim by the four JSON branches:
`raise_for_status()`, then `json.dumps(response.json(), indent=2)` into one
text block; each exception class lands in its `except` handler and becomes
one text block. -/
def jsonEndpointResult (r : HttpResult) : List ContentBlock :=
  match r with
  | HttpResult.connectError => [ContentBlock.text cannotConnectText]
  | HttpResult.otherFailure msg => [ContentBlock.text ("Error: " ++ msg)]
  | HttpResult.response status body =>
      if isSuccessStatus status then
        match Json.parse body with
        | some v => [ContentBlock.text (Json.dumps v)]
        | none => [ContentBlock.text ("Error: " ++ jsonDecodeFailureText)]
      else
        [ContentBlock.text ("Error: HTTP " ++ toString status ++ " - " ++ body)]

/-- The screenshot branch after the `window` check: `raise_for_status()`,
then a single base64 PNG image block; failures become one text block exactly
as for the JSON endpoints. -/
def screenshotEndpointResult (r : HttpResult) : List ContentBlock :=
  match r with
  | HttpResult.connectError => [ContentBlock.text cannotConnectText]
  | HttpResult.otherFailure msg => [ContentBlock.text ("Error: " ++ msg)]
  | HttpResult.response status body =>
      if isSuccessStatus status then
        [ContentBlock.image (base64Encode body) "image/png"]
      else
        [ContentBlock.text ("Error: HTTP " ++ toString status ++ " - " ++ body)]

/-- The dispatcher.  `backend` maps each issued request to its outcome; the
result pairs the returned content blocks with the list of backend requests
the call issued (empty exactly when the branch short-circuits before the
network). -/
def call_tool (name : String) (arguments : ToolArguments)
    (backend : BackendRequest → HttpResult) :
    List ContentBlock × List BackendRequest :=
  if name = "devdash_get_state" then
    (jsonEndpointResult (backend stateRequest), [stateRequest])
  else if name = "devdash_get_warnings" then
    (jsonEndpointResult (backend warningsRequest), [warningsRequest])
  else if name = "devdash_list_windows" then
    (jsonEndpointResult (backend windowsRequest), [windowsRequest])
  else if name = "devdash_get_logs" then
    (jsonEndpointResult (backend (logsRequest arguments)), [logsRequest arguments])
  else if name = "devdash_screenshot" then
    match arguments.window with
    | none => ([ContentBlock.text windowRequiredText], [])
    | some w =>
        if w = "" then ([ContentBlock.text windowRequiredText], [])
        else (screenshotEndpointResult (backend (screenshotRequest w)), [screenshotRequest w])
  else
    ([ContentBlock.text ("Unknown tool: " ++ name)], [])

/-! ## Derived notions used by the claims -/

/-- Query-parameter lookup (first occurrence). -/
def lookupParam (ps : List (String × String)) (k : String) : Option String :=
  (ps.find? (fun p => p.1 == k)).map (fun p => p.2)

/-- The names of the four JSON-returning tools. -/
def jsonToolNames : List String :=
  ["devdash_get_state", "devdash_get_warnings", "devdash_list_windows", "devdash_get_logs"]

/-- Containment: `seg` occurs contiguously inside `hay`. -/
def containsSeg (hay seg : List Char) : Prop := ∃ l r, hay = l ++ (seg ++ r)

/-- The URLs of the requests a dispatch issues.  The request list does not
depend on the answers of the backend, so any backend serves to read it off. -/
def requestUrlsOf (name : String) (arguments : ToolArguments) : List String :=
  ((call_tool name arguments (fun _ => HttpResult.connectError)).2).map
    (fun r => r.url)

/-- The schema-declared default of a `devdash_get_logs` property, read from
the catalog. -/
def logsSchemaDefault (prop : String) : Option Json :=
  match list_tools.find? (fun t => t.name == "devdash_get_logs") with
  | some t =>
      match t.inputSchema.properties.find? (fun p => p.1 == prop) with
      | some p => p.2.default
      | none => none
  | none => none

/-- How a schema default shows up on the wire, following the wording of the spec: a
numeric default as its decimal string, a string default as itself, and an
empty-string default as no parameter at all ("no filter" is omitted from the
outgoing request rather than sent as an empty value). -/
def defaultedQueryValue (j : Json) : Option String :=
  match j with
  | Json.num n => some (toString n)
  | Json.str s => if s = "" then none else some s
  | _ => none

/-- The effective value of a `get_logs` query parameter under the equivalence worded by the spec: the sent value when present, otherwise the schema-declared
default (with an empty default meaning the parameter is absent). -/
def effectiveLogsQuery (ps : List (String × String)) (prop : String) : Option String :=
  match lookupParam ps prop with
  | some v => some v
  | none =>
      match logsSchemaDefault prop with
      | some j => defaultedQueryValue j
      | none => none

/-! ## Theorems

### Digit runs and integers -/

theorem digitCh_toNat (k : Nat) (h : k < 10) : (Char.ofNat (48 + k)).toNat = 48 + k := by
  interval_cases k <;> decide

theorem digitCh_isDigit (k : Nat) (h : k < 10) : isDigitCh (Char.ofNat (48 + k)) = true := by
  interval_cases k <;> decide

theorem natChars_digits (n : Nat) : ∀ c ∈ natChars n, isDigitCh c = true := by
  induction n using Nat.strongRecOn with
  | _ n ih =>
    intro c hc
    rw [natChars] at hc
    by_cases h : n < 10
    · rw [dif_pos h] at hc
      simp only [List.mem_singleton] at hc
      subst hc
      exact digitCh_isDigit n h
    · rw [dif_neg h] at hc
      rcases List.mem_append.mp hc with hc1 | hc1
      · exact ih (n / 10) (Nat.div_lt_self (by omega) (by omega)) c hc1
      · simp only [List.mem_singleton] at hc1
        subst hc1
        exact digitCh_isDigit (n % 10) (Nat.mod_lt n (by omega))

theorem natChars_zero : natChars 0 = ['0'] := by
  rw [natChars]
  rfl

theorem natChars_head (n : Nat) :
    ∃ c t, natChars n = c :: t ∧ isDigitCh c = true ∧ (n ≠ 0 → c ≠ '0') := by
  induction n using Nat.strongRecOn with
  | _ n ih =>
    rw [natChars]
    by_cases h : n < 10
    · rw [dif_pos h]
      refine ⟨Char.ofNat (48 + n), [], rfl, digitCh_isDigit n h, ?_⟩
      intro hn hc
      have h1 := digitCh_toNat n h
      rw [hc] at h1
      have h2 : ('0').toNat = 48 := rfl
      omega
    · rw [dif_neg h]
      obtain ⟨c, t, hct, hd, hz⟩ := ih (n / 10) (Nat.div_lt_self (by omega) (by omega))
      exact ⟨c, t ++ [Char.ofNat (48 + n % 10)], by rw [hct]; rfl, hd,
        fun _ => hz (by omega)⟩

theorem digitsVal_snoc (ds : List Char) (d : Char) :
    digitsVal (ds ++ [d]) = digitsVal ds * 10 + (d.toNat - 48) := by
  simp [digitsVal, List.foldl_append]

theorem digitsVal_natChars (n : Nat) : digitsVal (natChars n) = n := by
  induction n using Nat.strongRecOn with
  | _ n ih =>
    rw [natChars]
    by_cases h : n < 10
    · rw [dif_pos h]
      have h1 := digitCh_toNat n h
      simp [digitsVal, h1]
    · rw [dif_neg h]
      rw [digitsVal_snoc, ih (n / 10) (Nat.div_lt_self (by omega) (by omega)),
        digitCh_toNat (n % 10) (Nat.mod_lt n (by omega))]
      omega

theorem grabDigits_stop (cs : List Char) (h : numStop cs = true) :
    grabDigits cs = ([], cs) := by
  cases cs with
  | nil => rfl
  | cons c t =>
    simp only [numStop, Bool.not_eq_eq_eq_not, Bool.not_true, Bool.or_eq_false_iff,
      decide_eq_false_iff_not] at h
    simp [grabDigits, h.1.1.1]

theorem grabDigits_run (ds : List Char) (hds : ∀ c ∈ ds, isDigitCh c = true)
    (rest : List Char) (hrest : grabDigits rest = ([], rest)) :
    grabDigits (ds ++ rest) = (ds, rest) := by
  induction ds with
  | nil => simpa using hrest
  | cons c t ih =>
    have hc := hds c (List.mem_cons_self ..)
    have ht := ih (fun x hx => hds x (List.mem_cons_of_mem _ hx))
    simp [grabDigits, hc, ht]

theorem readNat_natChars (n : Nat) (rest : List Char) (h : numStop rest = true) :
    readNat (natChars n ++ rest) = some (n, rest) := by
  by_cases h0 : n = 0
  · subst h0
    rw [natChars_zero]
    cases rest with
    | nil => rfl
    | cons d t =>
      simp only [numStop, Bool.not_eq_eq_eq_not, Bool.not_true, Bool.or_eq_false_iff,
        decide_eq_false_iff_not] at h
      simp [readNat, h.1.1.1, h.1.1.2, h.1.2, h.2]
  · obtain ⟨c, t, hct, hcd, hz⟩ := natChars_head n
    have hc0 : c ≠ '0' := hz h0
    have htd : ∀ x ∈ t, isDigitCh x = true := fun x hx =>
      natChars_digits n x (by rw [hct]; exact List.mem_cons_of_mem _ hx)
    have hgrab : grabDigits (t ++ rest) = (t, rest) :=
      grabDigits_run t htd rest (grabDigits_stop rest h)
    have hval : digitsVal (c :: t) = n := by rw [← hct]; exact digitsVal_natChars n
    rw [hct, List.cons_append]
    cases rest with
    | nil =>
      rw [List.append_nil] at hgrab
      simp [readNat, hc0, hcd, hgrab, hval]
    | cons d u =>
      simp only [numStop, Bool.not_eq_eq_eq_not, Bool.not_true, Bool.or_eq_false_iff,
        decide_eq_false_iff_not] at h
      simp [readNat, hc0, hcd, hgrab, hval, h.1.1.2, h.1.2, h.2]

theorem readNumber_intChars (i : Int) (rest : List Char) (h : numStop rest = true) :
    readNumber (intChars i ++ rest) = some (i, rest) := by
  cases i with
  | ofNat m =>
    show readNumber (natChars m ++ rest) = _
    obtain ⟨c, t, hct, hcd, _⟩ := natChars_head m
    have hcm : c ≠ '-' := by
      intro hc
      rw [hc] at hcd
      exact absurd hcd (by decide)
    rw [hct, List.cons_append]
    rw [readNumber, if_neg hcm, ← List.cons_append, ← hct, readNat_natChars m rest h]
    rfl
  | negSucc m =>
    show readNumber ('-' :: (natChars (m + 1) ++ rest)) = _
    rw [readNumber, if_pos rfl, readNat_natChars (m + 1) rest h]
    simp [Int.negSucc_eq]

/-! ### String escaping round-trip -/

theorem hexCharVal_hexChar (d : Nat) (h : d < 16) : hexCharVal (hexChar d) = some d := by
  interval_cases d <;> decide

theorem hexQuad_digits (n : Nat) (h : n < 65536) :
    hexQuad (hexChar (n / 4096 % 16)) (hexChar (n / 256 % 16))
      (hexChar (n / 16 % 16)) (hexChar (n % 16)) = some n := by
  rw [hexQuad, hexCharVal_hexChar (n / 4096 % 16) (Nat.mod_lt _ (by omega)),
    hexCharVal_hexChar (n / 256 % 16) (Nat.mod_lt _ (by omega)),
    hexCharVal_hexChar (n / 16 % 16) (Nat.mod_lt _ (by omega)),
    hexCharVal_hexChar (n % 16) (Nat.mod_lt _ (by omega))]
  exact congrArg some (by omega)

theorem readStr_simple_escape (e ch : Char) (t : List Char) (he : ¬e = 'u')
    (hs : simpleEscChar e = some ch) :
    readStrChars ('\\' :: e :: t) = consHd ch (readStrChars t) := by
  rw [readStrChars, if_neg (show ¬('\\' : Char) = '"' by decide),
    if_pos (show ('\\' : Char) = '\\' from rfl), readEscapeTail, if_neg he, hs]

theorem readStr_escapeChar (c : Char) (t : List Char) :
    readStrChars (escapeChar c ++ t) = consHd c (readStrChars t) := by
  by_cases h1 : c = '"'
  · subst h1
    exact readStr_simple_escape '"' '"' t (by decide) rfl
  by_cases h2 : c = '\\'
  · subst h2
    exact readStr_simple_escape '\\' '\\' t (by decide) rfl
  by_cases h3 : c = '\n'
  · subst h3
    exact readStr_simple_escape 'n' '\n' t (by decide) rfl
  by_cases h4 : c = '\r'
  · subst h4
    exact readStr_simple_escape 'r' '\r' t (by decide) rfl
  by_cases h5 : c = '\t'
  · subst h5
    exact readStr_simple_escape 't' '\t' t (by decide) rfl
  by_cases h6 : c = Char.ofNat 8
  · subst h6
    exact readStr_simple_escape 'b' (Char.ofNat 8) t (by decide) rfl
  by_cases h7 : c = Char.ofNat 12
  · subst h7
    exact readStr_simple_escape 'f' (Char.ofNat 12) t (by decide) rfl
  rw [escapeChar, if_neg h1, if_neg h2, if_neg h3, if_neg h4, if_neg h5, if_neg h6,
    if_neg h7]
  by_cases h8 : c.toNat < 32 ∨ 126 < c.toNat
  · rw [if_pos h8]
    by_cases h9 : c.toNat < 65536
    · rw [if_pos h9]
      have hv := c.valid
      have hsur : c.toNat < 55296 ∨ 57343 < c.toNat := by
        rcases hv with hv | hv
        · exact Or.inl hv
        · exact Or.inr hv.1
      rw [uEsc]
      show readStrChars ('\\' :: 'u' :: hexChar (c.toNat / 4096 % 16) ::
        hexChar (c.toNat / 256 % 16) :: hexChar (c.toNat / 16 % 16) ::
        hexChar (c.toNat % 16) :: t) = _
      rw [readStrChars, if_neg (show ¬('\\' : Char) = '"' by decide),
        if_pos (show ('\\' : Char) = '\\' from rfl), readEscapeTail,
        if_pos (show ('u' : Char) = 'u' from rfl), readUEscape]
      simp only [hexQuad_digits c.toNat h9]
      rw [if_pos hsur, Char.ofNat_toNat]
    · rw [if_neg h9]
      have hv : c.toNat < 55296 ∨ (57343 < c.toNat ∧ c.toNat < 1114112) := c.valid
      have hlt : c.toNat < 1114112 := by omega
      have hhi1 : ¬(55296 + (c.toNat - 65536) / 1024 < 55296 ∨
          57343 < 55296 + (c.toNat - 65536) / 1024) := by omega
      have hhi2 : 55296 + (c.toNat - 65536) / 1024 < 56320 := by omega
      have hlo : 56320 ≤ 56320 + (c.toNat - 65536) % 1024 ∧
          56320 + (c.toNat - 65536) % 1024 ≤ 57343 := by omega
      rw [uEsc, uEsc]
      show readStrChars ('\\' :: 'u' ::
        hexChar ((55296 + (c.toNat - 65536) / 1024) / 4096 % 16) ::
        hexChar ((55296 + (c.toNat - 65536) / 1024) / 256 % 16) ::
        hexChar ((55296 + (c.toNat - 65536) / 1024) / 16 % 16) ::
        hexChar ((55296 + (c.toNat - 65536) / 1024) % 16) :: ('\\' :: 'u' ::
        hexChar ((56320 + (c.toNat - 65536) % 1024) / 4096 % 16) ::
        hexChar ((56320 + (c.toNat - 65536) % 1024) / 256 % 16) ::
        hexChar ((56320 + (c.toNat - 65536) % 1024) / 16 % 16) ::
        hexChar ((56320 + (c.toNat - 65536) % 1024) % 16) :: t)) = _
      rw [readStrChars, if_neg (show ¬('\\' : Char) = '"' by decide),
        if_pos (show ('\\' : Char) = '\\' from rfl), readEscapeTail,
        if_pos (show ('u' : Char) = 'u' from rfl), readUEscape]
      simp only [hexQuad_digits (55296 + (c.toNat - 65536) / 1024) (by omega)]
      rw [if_neg hhi1, if_pos hhi2, readLowSurrogate,
        if_pos (show ('\\' : Char) = '\\' ∧ ('u' : Char) = 'u' from ⟨rfl, rfl⟩)]
      simp only [hexQuad_digits (56320 + (c.toNat - 65536) % 1024) (by omega)]
      rw [if_pos hlo]
      have harith : 65536 + (55296 + (c.toNat - 65536) / 1024 - 55296) * 1024 +
          (56320 + (c.toNat - 65536) % 1024 - 56320) = c.toNat := by omega
      rw [harith, Char.ofNat_toNat]
  · rw [if_neg h8]
    have hge : ¬(c.toNat < 32) := by omega
    show readStrChars (c :: t) = _
    rw [readStrChars, if_neg h1, if_neg h2, if_neg hge]

theorem readStr_escapeAll (l rest : List Char) :
    readStrChars (escapeAll l ++ ('"' :: rest)) = some (l, rest) := by
  induction l with
  | nil =>
    show readStrChars ('"' :: rest) = some ([], rest)
    rw [readStrChars, if_pos (show ('"' : Char) = '"' from rfl)]
  | cons c cs ih =>
    rw [escapeAll, List.append_assoc, readStr_escapeChar, ih]
    rfl

/-! ### Whitespace and serializer head characters -/

theorem dropWs_cons_ws (c : Char) (l : List Char) (h : isWsCh c = true) :
    dropWs (c :: l) = dropWs l := by
  rw [dropWs, if_pos h]

theorem dropWs_pad (n : Nat) (l : List Char) : dropWs (pad n ++ l) = dropWs l := by
  induction n with
  | zero => rfl
  | succ m ih =>
    rw [pad, List.replicate_succ, List.cons_append,
      dropWs_cons_ws ' ' _ (by decide)]
    exact ih

theorem digit_head_facts (c : Char) (h : isDigitCh c = true) :
    isWsCh c = false ∧ ¬c = ']' ∧ ¬c = '}' := by
  have hn : 48 ≤ c.toNat ∧ c.toNat ≤ 57 := by
    simpa [isDigitCh] using h
  refine ⟨?_, ?_, ?_⟩
  · simp only [isWsCh, Bool.or_eq_false_iff, decide_eq_false_iff_not]
    refine ⟨⟨⟨?_, ?_⟩, ?_⟩, ?_⟩ <;> (intro he; subst he; exact absurd hn (by decide))
  · intro he; subst he; exact absurd hn (by decide)
  · intro he; subst he; exact absurd hn (by decide)

theorem dumpAux_head (ind : Nat) (v : Json) :
    ∃ c t, dumpAux ind v = c :: t ∧ isWsCh c = false ∧ ¬c = ']' ∧ ¬c = '}' := by
  cases v with
  | null => exact ⟨'n', _, by rw [dumpAux], by decide, by decide, by decide⟩
  | bool b =>
    cases b with
    | true => exact ⟨'t', _, by rw [dumpAux], by decide, by decide, by decide⟩
    | false => exact ⟨'f', _, by rw [dumpAux], by decide, by decide, by decide⟩
  | str s => exact ⟨'"', _, by rw [dumpAux, strQuote], by decide, by decide, by decide⟩
  | num i =>
    cases i with
    | ofNat m =>
      obtain ⟨c, t, hct, hcd, _⟩ := natChars_head m
      obtain ⟨hws, hbr, hbc⟩ := digit_head_facts c hcd
      refine ⟨c, t, ?_, hws, hbr, hbc⟩
      rw [dumpAux, show intChars (Int.ofNat m) = natChars m from rfl, hct]
    | negSucc m =>
      refine ⟨'-', natChars (m + 1), ?_, by decide, by decide, by decide⟩
      rw [dumpAux, show intChars (Int.negSucc m) = '-' :: natChars (m + 1) from rfl]
  | arr items =>
    cases items with
    | nil => exact ⟨'[', _, by rw [dumpAux], by decide, by decide, by decide⟩
    | cons x xs => exact ⟨'[', _, by rw [dumpAux], by decide, by decide, by decide⟩
  | obj fields =>
    cases fields with
    | nil => exact ⟨'{', _, by rw [dumpAux], by decide, by decide, by decide⟩
    | cons f fs =>
      obtain ⟨k, v⟩ := f
      exact ⟨'{', _, by rw [dumpAux], by decide, by decide, by decide⟩

theorem dropWs_dumpAux (ind : Nat) (v : Json) (rest : List Char) :
    dropWs (dumpAux ind v ++ rest) = dumpAux ind v ++ rest := by
  obtain ⟨c, t, hct, hws, _, _⟩ := dumpAux_head ind v
  rw [hct, List.cons_append, dropWs, if_neg (by simp [hws])]

theorem dropWs_strQuote (k : String) (rest : List Char) :
    dropWs (strQuote k ++ rest) = strQuote k ++ rest := by
  rw [strQuote, List.cons_append, dropWs, if_neg (by decide)]

theorem dumpAux_len_pos (ind : Nat) (v : Json) : 1 ≤ (dumpAux ind v).length := by
  obtain ⟨c, t, hct, _, _, _⟩ := dumpAux_head ind v
  rw [hct]
  simp

theorem readValue_ws (fuel : Nat) (cs1 cs2 : List Char) (h : dropWs cs1 = dropWs cs2) :
    readValue fuel cs1 = readValue fuel cs2 := by
  cases fuel with
  | zero => rfl
  | succ f => rw [readValue, readValue, h]

theorem readItems_ws (fuel : Nat) (cs1 cs2 : List Char) (h : dropWs cs1 = dropWs cs2) :
    readItems fuel cs1 = readItems fuel cs2 := by
  cases fuel with
  | zero => rfl
  | succ f => rw [readItems, readItems, readValue_ws f cs1 cs2 h]

theorem readPairs_ws (fuel : Nat) (cs1 cs2 : List Char) (h : dropWs cs1 = dropWs cs2) :
    readPairs fuel cs1 = readPairs fuel cs2 := by
  cases fuel with
  | zero => rfl
  | succ f => rw [readPairs, readPairs, h]

theorem digit_not_markers (c : Char) (h : isDigitCh c = true) :
    ¬c = 'n' ∧ ¬c = 't' ∧ ¬c = 'f' ∧ ¬c = '"' ∧ ¬c = '[' ∧ ¬c = '{' := by
  have hn : 48 ≤ c.toNat ∧ c.toNat ≤ 57 := by simpa [isDigitCh] using h
  refine ⟨?_, ?_, ?_, ?_, ?_, ?_⟩ <;> (intro he; subst he; exact absurd hn (by decide))

theorem numStop_head (c : Char) (l : List Char)
    (h : (isDigitCh c || c = '.' || c = 'e' || c = 'E') = false) :
    numStop (c :: l) = true := by
  rw [numStop, h]
  rfl

theorem rv_null (ind f : Nat) (rest : List Char) :
    readValue (f + 1) (dumpAux ind Json.null ++ rest) = some (Json.null, rest) := by
  rw [show dumpAux ind Json.null = ['n', 'u', 'l', 'l'] from by rw [dumpAux]]
  show readValue (f + 1) ('n' :: 'u' :: 'l' :: 'l' :: rest) = _
  have hd : dropWs ('n' :: 'u' :: 'l' :: 'l' :: rest) =
      'n' :: 'u' :: 'l' :: 'l' :: rest := by
    rw [dropWs, if_neg (by decide)]
  simp only [readValue, hd]
  rfl

theorem rv_num (i : Int) (ind f : Nat) (rest : List Char) (hns : numStop rest = true) :
    readValue (f + 1) (dumpAux ind (Json.num i) ++ rest) = some (Json.num i, rest) := by
  rw [show dumpAux ind (Json.num i) = intChars i from by rw [dumpAux]]
  cases i with
  | ofNat m =>
      obtain ⟨c, t, hct, hcd, _⟩ := natChars_head m
      obtain ⟨hn1, hn2, hn3, hn4, hn5, hn6⟩ := digit_not_markers c hcd
      have hW := (digit_head_facts c hcd).1
      rw [show intChars (Int.ofNat m) = natChars m from rfl, hct, List.cons_append]
      have hd : dropWs (c :: (t ++ rest)) = c :: (t ++ rest) := by
        rw [dropWs, if_neg (by simp [hW])]
      simp only [readValue, hd]
      rw [if_neg hn1, if_neg hn2, if_neg hn3, if_neg hn4, if_neg hn5, if_neg hn6,
        if_pos (Or.inr hcd : c = '-' ∨ isDigitCh c = true)]
      rw [← List.cons_append, ← hct,
        show natChars m = intChars (Int.ofNat m) from rfl,
        readNumber_intChars _ rest hns]
      rfl
  | negSucc m =>
      rw [show intChars (Int.negSucc m) = '-' :: natChars (m + 1) from rfl,
        List.cons_append]
      have hd : dropWs ('-' :: (natChars (m + 1) ++ rest)) =
          '-' :: (natChars (m + 1) ++ rest) := by
        rw [dropWs, if_neg (by decide)]
      simp only [readValue, hd]
      rw [if_neg (by decide), if_neg (by decide), if_neg (by decide),
        if_neg (by decide), if_neg (by decide), if_neg (by decide),
        if_pos (Or.inl trivial : True ∨ isDigitCh '-' = true)]
      rw [← List.cons_append,
        show '-' :: natChars (m + 1) = intChars (Int.negSucc m) from rfl,
        readNumber_intChars _ rest hns]
      rfl

theorem rv_str (s : String) (ind f : Nat) (rest : List Char) :
    readValue (f + 1) (dumpAux ind (Json.str s) ++ rest) = some (Json.str s, rest) := by
  obtain ⟨d⟩ := s
  rw [show dumpAux ind (Json.str (String.mk d)) = strQuote (String.mk d) from by
    rw [dumpAux]]
  rw [strQuote, List.cons_append, List.append_assoc, List.singleton_append]
  have hd : dropWs ('"' :: (escapeAll (String.mk d).data ++ '"' :: rest)) =
      '"' :: (escapeAll (String.mk d).data ++ '"' :: rest) := by
    rw [dropWs, if_neg (by decide)]
  simp only [readValue, hd]
  rw [readStr_escapeAll]
  rfl

theorem rv_arr_nil (ind f : Nat) (rest : List Char) :
    readValue (f + 1) (dumpAux ind (Json.arr []) ++ rest) = some (Json.arr [], rest) := by
  rw [show dumpAux ind (Json.arr []) = ['[', ']'] from by rw [dumpAux]]
  show readValue (f + 1) ('[' :: ']' :: rest) = _
  have hd1 : dropWs ('[' :: ']' :: rest) = '[' :: ']' :: rest := by
    rw [dropWs, if_neg (by decide)]
  have hd2 : dropWs (']' :: rest) = ']' :: rest := by
    rw [dropWs, if_neg (by decide)]
  simp only [readValue, hd1, hd2]
  rfl

theorem rv_obj_nil (ind f : Nat) (rest : List Char) :
    readValue (f + 1) (dumpAux ind (Json.obj []) ++ rest) = some (Json.obj [], rest) := by
  rw [show dumpAux ind (Json.obj []) = ['{', '}'] from by rw [dumpAux]]
  show readValue (f + 1) ('{' :: '}' :: rest) = _
  have hd1 : dropWs ('{' :: '}' :: rest) = '{' :: '}' :: rest := by
    rw [dropWs, if_neg (by decide)]
  have hd2 : dropWs ('}' :: rest) = '}' :: rest := by
    rw [dropWs, if_neg (by decide)]
  simp only [readValue, hd1, hd2]
  rfl

theorem rv_arr_cons (x : Json) (xs : List Json) (ind f : Nat) (rest : List Char)
    (hitems : readItems f (dumpAux (ind + 2) x ++ (dumpItems (ind + 2) xs ++
        ('\n' :: (pad ind ++ (']' :: rest))))) = some (x :: xs, rest)) :
    readValue (f + 1) (dumpAux ind (Json.arr (x :: xs)) ++ rest) =
      some (Json.arr (x :: xs), rest) := by
  rw [show dumpAux ind (Json.arr (x :: xs)) =
      '[' :: '\n' :: (pad (ind + 2) ++ (dumpAux (ind + 2) x ++
        (dumpItems (ind + 2) xs ++ ('\n' :: (pad ind ++ [']']))))) from by rw [dumpAux]]
  simp only [List.cons_append, List.append_assoc, List.singleton_append, List.nil_append]
  obtain ⟨c, t, hct, hcw, hbr, hbc⟩ := dumpAux_head (ind + 2) x
  have hd1 : dropWs ('[' :: '\n' :: (pad (ind + 2) ++ (dumpAux (ind + 2) x ++
      (dumpItems (ind + 2) xs ++ ('\n' :: (pad ind ++ (']' :: rest))))))) =
      '[' :: '\n' :: (pad (ind + 2) ++ (dumpAux (ind + 2) x ++
      (dumpItems (ind + 2) xs ++ ('\n' :: (pad ind ++ (']' :: rest)))))) := by
    rw [dropWs, if_neg (by decide)]
  have hd2 : dropWs ('\n' :: (pad (ind + 2) ++ (dumpAux (ind + 2) x ++
      (dumpItems (ind + 2) xs ++ ('\n' :: (pad ind ++ (']' :: rest))))))) =
      c :: (t ++ (dumpItems (ind + 2) xs ++ ('\n' :: (pad ind ++ (']' :: rest))))) := by
    rw [dropWs_cons_ws _ _ (by decide), dropWs_pad, dropWs_dumpAux, hct, List.cons_append]
  simp only [readValue, hd1, hd2]
  rw [if_neg hbr,
    show c :: (t ++ (dumpItems (ind + 2) xs ++ ('\n' :: (pad ind ++ (']' :: rest))))) =
        dumpAux (ind + 2) x ++ (dumpItems (ind + 2) xs ++ ('\n' :: (pad ind ++ (']' :: rest))))
      from by rw [hct, List.cons_append],
    hitems]
  rfl

theorem rv_obj_cons (k : String) (v : Json) (fs : List (String × Json)) (ind f : Nat)
    (rest : List Char)
    (hpairs : readPairs f (strQuote k ++ (':' :: ' ' :: (dumpAux (ind + 2) v ++
        (dumpFields (ind + 2) fs ++ ('\n' :: (pad ind ++ ('}' :: rest))))))) =
      some ((k, v) :: fs, rest)) :
    readValue (f + 1) (dumpAux ind (Json.obj ((k, v) :: fs)) ++ rest) =
      some (Json.obj ((k, v) :: fs), rest) := by
  rw [show dumpAux ind (Json.obj ((k, v) :: fs)) =
      '{' :: '\n' :: (pad (ind + 2) ++ (strQuote k ++ (':' :: ' ' ::
        (dumpAux (ind + 2) v ++ (dumpFields (ind + 2) fs ++
          ('\n' :: (pad ind ++ ['}']))))))) from by rw [dumpAux]]
  simp only [List.cons_append, List.append_assoc, List.singleton_append, List.nil_append]
  have hd1 : dropWs ('{' :: '\n' :: (pad (ind + 2) ++ (strQuote k ++ (':' :: ' ' ::
      (dumpAux (ind + 2) v ++ (dumpFields (ind + 2) fs ++
        ('\n' :: (pad ind ++ ('}' :: rest))))))))) =
      '{' :: '\n' :: (pad (ind + 2) ++ (strQuote k ++ (':' :: ' ' ::
      (dumpAux (ind + 2) v ++ (dumpFields (ind + 2) fs ++
        ('\n' :: (pad ind ++ ('}' :: rest)))))))) := by
    rw [dropWs, if_neg (by decide)]
  have hd2 : dropWs ('\n' :: (pad (ind + 2) ++ (strQuote k ++ (':' :: ' ' ::
      (dumpAux (ind + 2) v ++ (dumpFields (ind + 2) fs ++
        ('\n' :: (pad ind ++ ('}' :: rest))))))))) =
      '"' :: (escapeAll k.data ++ ('"' :: (':' :: ' ' ::
      (dumpAux (ind + 2) v ++ (dumpFields (ind + 2) fs ++
        ('\n' :: (pad ind ++ ('}' :: rest)))))))) := by
    rw [dropWs_cons_ws _ _ (by decide), dropWs_pad, dropWs_strQuote]
    simp only [strQuote, List.cons_append, List.append_assoc, List.singleton_append,
      List.nil_append]
  simp only [readValue, hd1, hd2]
  rw [show ('"' : Char) :: (escapeAll k.data ++ ('"' :: (':' :: ' ' ::
      (dumpAux (ind + 2) v ++ (dumpFields (ind + 2) fs ++
        ('\n' :: (pad ind ++ ('}' :: rest)))))))) = strQuote k ++ (':' :: ' ' ::
      (dumpAux (ind + 2) v ++ (dumpFields (ind + 2) fs ++
        ('\n' :: (pad ind ++ ('}' :: rest)))))) from by
    simp only [strQuote, List.cons_append, List.append_assoc, List.singleton_append,
      List.nil_append]]
  rw [hpairs]
  rfl

theorem ri_last (x : Json) (ind ind0 f : Nat) (rest : List Char)
    (hval : readValue f (dumpAux ind x ++ ('\n' :: (pad ind0 ++ (']' :: rest)))) =
      some (x, '\n' :: (pad ind0 ++ (']' :: rest)))) :
    readItems (f + 1) (dumpAux ind x ++ (dumpItems ind [] ++
        ('\n' :: (pad ind0 ++ (']' :: rest))))) = some ([x], rest) := by
  rw [show dumpItems ind ([] : List Json) = [] from by rw [dumpItems], List.nil_append]
  have hd : dropWs ('\n' :: (pad ind0 ++ (']' :: rest))) = ']' :: rest := by
    rw [dropWs_cons_ws _ _ (by decide), dropWs_pad, dropWs, if_neg (by decide)]
  simp only [readItems, hval, hd]
  rfl

theorem ri_cons (x y : Json) (ys : List Json) (ind ind0 f : Nat) (rest : List Char)
    (hval : readValue f (dumpAux ind x ++ (',' :: '\n' :: (pad ind ++ (dumpAux ind y ++
        (dumpItems ind ys ++ ('\n' :: (pad ind0 ++ (']' :: rest)))))))) =
      some (x, ',' :: '\n' :: (pad ind ++ (dumpAux ind y ++
        (dumpItems ind ys ++ ('\n' :: (pad ind0 ++ (']' :: rest))))))))
    (hrec : readItems f (dumpAux ind y ++ (dumpItems ind ys ++
        ('\n' :: (pad ind0 ++ (']' :: rest))))) = some (y :: ys, rest)) :
    readItems (f + 1) (dumpAux ind x ++ (dumpItems ind (y :: ys) ++
        ('\n' :: (pad ind0 ++ (']' :: rest))))) = some (x :: y :: ys, rest) := by
  rw [show dumpItems ind (y :: ys) =
      ',' :: '\n' :: (pad ind ++ (dumpAux ind y ++ dumpItems ind ys)) from by
    rw [dumpItems]]
  simp only [List.cons_append, List.append_assoc, List.singleton_append, List.nil_append]
  have hd : dropWs (',' :: '\n' :: (pad ind ++ (dumpAux ind y ++ (dumpItems ind ys ++
      ('\n' :: (pad ind0 ++ (']' :: rest))))))) =
      ',' :: '\n' :: (pad ind ++ (dumpAux ind y ++ (dumpItems ind ys ++
      ('\n' :: (pad ind0 ++ (']' :: rest)))))) := by
    rw [dropWs, if_neg (by decide)]
  have hrw : readItems f ('\n' :: (pad ind ++ (dumpAux ind y ++ (dumpItems ind ys ++
      ('\n' :: (pad ind0 ++ (']' :: rest))))))) = some (y :: ys, rest) := by
    have hdws : dropWs ('\n' :: (pad ind ++ (dumpAux ind y ++ (dumpItems ind ys ++
        ('\n' :: (pad ind0 ++ (']' :: rest))))))) =
        dropWs (dumpAux ind y ++ (dumpItems ind ys ++
        ('\n' :: (pad ind0 ++ (']' :: rest))))) := by
      rw [dropWs_cons_ws _ _ (by decide), dropWs_pad]
    rw [readItems_ws f _ _ hdws, hrec]
  simp only [readItems, hval, hd, hrw]
  rfl

theorem rp_last (k : String) (v : Json) (ind ind0 f : Nat) (rest : List Char)
    (hval : readValue f (dumpAux ind v ++ ('\n' :: (pad ind0 ++ ('}' :: rest)))) =
      some (v, '\n' :: (pad ind0 ++ ('}' :: rest)))) :
    readPairs (f + 1) (strQuote k ++ (':' :: ' ' :: (dumpAux ind v ++
        (dumpFields ind [] ++ ('\n' :: (pad ind0 ++ ('}' :: rest))))))) =
      some ([(k, v)], rest) := by
  rw [show dumpFields ind ([] : List (String × Json)) = [] from by rw [dumpFields],
    List.nil_append]
  obtain ⟨kd⟩ := k
  rw [show strQuote (String.mk kd) ++ (':' :: ' ' :: (dumpAux ind v ++
      ('\n' :: (pad ind0 ++ ('}' :: rest))))) =
      '"' :: (escapeAll kd ++ ('"' :: (':' :: ' ' :: (dumpAux ind v ++
      ('\n' :: (pad ind0 ++ ('}' :: rest))))))) from by
    simp only [strQuote, List.cons_append, List.append_assoc, List.singleton_append,
      List.nil_append]]
  have hd0 : dropWs ('"' :: (escapeAll kd ++ ('"' :: (':' :: ' ' :: (dumpAux ind v ++
      ('\n' :: (pad ind0 ++ ('}' :: rest)))))))) =
      '"' :: (escapeAll kd ++ ('"' :: (':' :: ' ' :: (dumpAux ind v ++
      ('\n' :: (pad ind0 ++ ('}' :: rest))))))) := by
    rw [dropWs, if_neg (by decide)]
  have hkey := readStr_escapeAll kd (':' :: ' ' :: (dumpAux ind v ++
    ('\n' :: (pad ind0 ++ ('}' :: rest)))))
  have hd1 : dropWs (':' :: ' ' :: (dumpAux ind v ++
      ('\n' :: (pad ind0 ++ ('}' :: rest))))) =
      ':' :: ' ' :: (dumpAux ind v ++ ('\n' :: (pad ind0 ++ ('}' :: rest)))) := by
    rw [dropWs, if_neg (by decide)]
  have hv : readValue f (' ' :: (dumpAux ind v ++ ('\n' :: (pad ind0 ++ ('}' :: rest))))) =
      some (v, '\n' :: (pad ind0 ++ ('}' :: rest))) := by
    have hdws : dropWs (' ' :: (dumpAux ind v ++ ('\n' :: (pad ind0 ++ ('}' :: rest))))) =
        dropWs (dumpAux ind v ++ ('\n' :: (pad ind0 ++ ('}' :: rest)))) := by
      rw [dropWs_cons_ws _ _ (by decide)]
    rw [readValue_ws f _ _ hdws, hval]
  have hd2 : dropWs ('\n' :: (pad ind0 ++ ('}' :: rest))) = '}' :: rest := by
    rw [dropWs_cons_ws _ _ (by decide), dropWs_pad, dropWs, if_neg (by decide)]
  simp only [readPairs, hd0, hkey, hd1, hv, hd2]
  rfl

theorem rp_cons (k : String) (v : Json) (k2 : String) (v2 : Json)
    (fs2 : List (String × Json)) (ind ind0 f : Nat) (rest : List Char)
    (hval : readValue f (dumpAux ind v ++ (',' :: '\n' :: (pad ind ++ (strQuote k2 ++ (':' :: ' ' :: (dumpAux ind v2 ++ (dumpFields ind fs2 ++ ('\n' :: (pad ind0 ++ ('}' :: rest)))))))))) = some (v, (',' :: '\n' :: (pad ind ++ (strQuote k2 ++ (':' :: ' ' :: (dumpAux ind v2 ++ (dumpFields ind fs2 ++ ('\n' :: (pad ind0 ++ ('}' :: rest)))))))))))
    (hrec : readPairs f (strQuote k2 ++ (':' :: ' ' :: (dumpAux ind v2 ++ (dumpFields ind fs2 ++ ('\n' :: (pad ind0 ++ ('}' :: rest))))))) =
      some ((k2, v2) :: fs2, rest)) :
    readPairs (f + 1) (strQuote k ++ (':' :: ' ' :: (dumpAux ind v ++
        (dumpFields ind ((k2, v2) :: fs2) ++ ('\n' :: (pad ind0 ++ ('}' :: rest))))))) =
      some ((k, v) :: (k2, v2) :: fs2, rest) := by
  rw [show dumpFields ind ((k2, v2) :: fs2) =
      ',' :: '\n' :: (pad ind ++ (strQuote k2 ++ (':' :: ' ' ::
        (dumpAux ind v2 ++ dumpFields ind fs2)))) from by rw [dumpFields]]
  simp only [List.cons_append, List.append_assoc, List.singleton_append, List.nil_append]
  obtain ⟨kd⟩ := k
  have hq : strQuote (String.mk kd) ++ (':' :: ' ' :: (dumpAux ind v ++ (',' :: '\n' :: (pad ind ++ (strQuote k2 ++ (':' :: ' ' :: (dumpAux ind v2 ++ (dumpFields ind fs2 ++ ('\n' :: (pad ind0 ++ ('}' :: rest))))))))))) = ('"' :: (escapeAll kd ++ ('"' :: (':' :: ' ' :: (dumpAux ind v ++ (',' :: '\n' :: (pad ind ++ (strQuote k2 ++ (':' :: ' ' :: (dumpAux ind v2 ++ (dumpFields ind fs2 ++ ('\n' :: (pad ind0 ++ ('}' :: rest)))))))))))))) := by
    simp only [strQuote, List.cons_append, List.append_assoc, List.singleton_append,
      List.nil_append]
  rw [hq]
  have hd0 : dropWs ('"' :: (escapeAll kd ++ ('"' :: (':' :: ' ' :: (dumpAux ind v ++ (',' :: '\n' :: (pad ind ++ (strQuote k2 ++ (':' :: ' ' :: (dumpAux ind v2 ++ (dumpFields ind fs2 ++ ('\n' :: (pad ind0 ++ ('}' :: rest)))))))))))))) = ('"' :: (escapeAll kd ++ ('"' :: (':' :: ' ' :: (dumpAux ind v ++ (',' :: '\n' :: (pad ind ++ (strQuote k2 ++ (':' :: ' ' :: (dumpAux ind v2 ++ (dumpFields ind fs2 ++ ('\n' :: (pad ind0 ++ ('}' :: rest)))))))))))))) := by
    rw [dropWs, if_neg (by decide)]
  have hkey := readStr_escapeAll kd (':' :: ' ' :: (dumpAux ind v ++ (',' :: '\n' :: (pad ind ++ (strQuote k2 ++ (':' :: ' ' :: (dumpAux ind v2 ++ (dumpFields ind fs2 ++ ('\n' :: (pad ind0 ++ ('}' :: rest)))))))))))
  have hd1 : dropWs (':' :: ' ' :: (dumpAux ind v ++ (',' :: '\n' :: (pad ind ++ (strQuote k2 ++ (':' :: ' ' :: (dumpAux ind v2 ++ (dumpFields ind fs2 ++ ('\n' :: (pad ind0 ++ ('}' :: rest))))))))))) = (':' :: ' ' :: (dumpAux ind v ++ (',' :: '\n' :: (pad ind ++ (strQuote k2 ++ (':' :: ' ' :: (dumpAux ind v2 ++ (dumpFields ind fs2 ++ ('\n' :: (pad ind0 ++ ('}' :: rest))))))))))) := by
    rw [dropWs, if_neg (by decide)]
  have hv : readValue f (' ' :: (dumpAux ind v ++ (',' :: '\n' :: (pad ind ++ (strQuote k2 ++ (':' :: ' ' :: (dumpAux ind v2 ++ (dumpFields ind fs2 ++ ('\n' :: (pad ind0 ++ ('}' :: rest))))))))))) = some (v, (',' :: '\n' :: (pad ind ++ (strQuote k2 ++ (':' :: ' ' :: (dumpAux ind v2 ++ (dumpFields ind fs2 ++ ('\n' :: (pad ind0 ++ ('}' :: rest)))))))))) := by
    have hdws : dropWs (' ' :: (dumpAux ind v ++ (',' :: '\n' :: (pad ind ++ (strQuote k2 ++ (':' :: ' ' :: (dumpAux ind v2 ++ (dumpFields ind fs2 ++ ('\n' :: (pad ind0 ++ ('}' :: rest))))))))))) = dropWs (dumpAux ind v ++ (',' :: '\n' :: (pad ind ++ (strQuote k2 ++ (':' :: ' ' :: (dumpAux ind v2 ++ (dumpFields ind fs2 ++ ('\n' :: (pad ind0 ++ ('}' :: rest)))))))))) := by
      rw [dropWs_cons_ws _ _ (by decide)]
    rw [readValue_ws f _ _ hdws, hval]
  have hd2 : dropWs (',' :: '\n' :: (pad ind ++ (strQuote k2 ++ (':' :: ' ' :: (dumpAux ind v2 ++ (dumpFields ind fs2 ++ ('\n' :: (pad ind0 ++ ('}' :: rest))))))))) = (',' :: '\n' :: (pad ind ++ (strQuote k2 ++ (':' :: ' ' :: (dumpAux ind v2 ++ (dumpFields ind fs2 ++ ('\n' :: (pad ind0 ++ ('}' :: rest))))))))) := by
    rw [dropWs, if_neg (by decide)]
  have hrw : readPairs f ('\n' :: (pad ind ++ (strQuote k2 ++ (':' :: ' ' :: (dumpAux ind v2 ++ (dumpFields ind fs2 ++ ('\n' :: (pad ind0 ++ ('}' :: rest))))))))) =
      some ((k2, v2) :: fs2, rest) := by
    have hdws : dropWs ('\n' :: (pad ind ++ (strQuote k2 ++ (':' :: ' ' :: (dumpAux ind v2 ++ (dumpFields ind fs2 ++ ('\n' :: (pad ind0 ++ ('}' :: rest))))))))) = dropWs (strQuote k2 ++ (':' :: ' ' :: (dumpAux ind v2 ++ (dumpFields ind fs2 ++ ('\n' :: (pad ind0 ++ ('}' :: rest))))))) := by
      rw [dropWs_cons_ws _ _ (by decide), dropWs_pad]
    rw [readPairs_ws f _ _ hdws]
    exact hrec
  simp only [readPairs, hd0, hkey, hd1, hv, hd2, hrw]
  rfl

theorem rv_bool (b : Bool) (ind f : Nat) (rest : List Char) :
    readValue (f + 1) (dumpAux ind (Json.bool b) ++ rest) = some (Json.bool b, rest) := by
  cases b with
  | true =>
      rw [show dumpAux ind (Json.bool true) = ['t', 'r', 'u', 'e'] from by rw [dumpAux]]
      show readValue (f + 1) ('t' :: 'r' :: 'u' :: 'e' :: rest) = _
      have hd : dropWs ('t' :: 'r' :: 'u' :: 'e' :: rest) =
          't' :: 'r' :: 'u' :: 'e' :: rest := by
        rw [dropWs, if_neg (by decide)]
      simp only [readValue, hd]
      rfl
  | false =>
      rw [show dumpAux ind (Json.bool false) = ['f', 'a', 'l', 's', 'e'] from by
        rw [dumpAux]]
      show readValue (f + 1) ('f' :: 'a' :: 'l' :: 's' :: 'e' :: rest) = _
      have hd : dropWs ('f' :: 'a' :: 'l' :: 's' :: 'e' :: rest) =
          'f' :: 'a' :: 'l' :: 's' :: 'e' :: rest := by
        rw [dropWs, if_neg (by decide)]
      simp only [readValue, hd]
      rfl

mutual

theorem readValue_dump : ∀ (v : Json) (ind fuel : Nat) (rest : List Char),
    (dumpAux ind v).length < fuel → numStop rest = true →
    readValue fuel (dumpAux ind v ++ rest) = some (v, rest)
  | Json.null, ind, fuel, rest, hf, _ => by
      cases fuel with
      | zero => exact absurd hf (Nat.not_lt_zero _)
      | succ f => exact rv_null ind f rest
  | Json.bool b, ind, fuel, rest, hf, _ => by
      cases fuel with
      | zero => exact absurd hf (Nat.not_lt_zero _)
      | succ f => exact rv_bool b ind f rest
  | Json.num i, ind, fuel, rest, hf, hns => by
      cases fuel with
      | zero => exact absurd hf (Nat.not_lt_zero _)
      | succ f => exact rv_num i ind f rest hns
  | Json.str s, ind, fuel, rest, hf, _ => by
      cases fuel with
      | zero => exact absurd hf (Nat.not_lt_zero _)
      | succ f => exact rv_str s ind f rest
  | Json.arr [], ind, fuel, rest, hf, _ => by
      cases fuel with
      | zero => exact absurd hf (Nat.not_lt_zero _)
      | succ f => exact rv_arr_nil ind f rest
  | Json.arr (x :: xs), ind, fuel, rest, hf, _ => by
      cases fuel with
      | zero => exact absurd hf (Nat.not_lt_zero _)
      | succ f =>
          rw [show dumpAux ind (Json.arr (x :: xs)) =
              '[' :: '\n' :: (pad (ind + 2) ++ (dumpAux (ind + 2) x ++
                (dumpItems (ind + 2) xs ++ ('\n' :: (pad ind ++ [']']))))) from by
            rw [dumpAux]] at hf
          simp only [List.length_cons, List.length_append, pad,
            List.length_replicate, List.length_nil] at hf
          exact rv_arr_cons x xs ind f rest
            (readItems_dump x xs (ind + 2) ind f rest (by omega))
  | Json.obj [], ind, fuel, rest, hf, _ => by
      cases fuel with
      | zero => exact absurd hf (Nat.not_lt_zero _)
      | succ f => exact rv_obj_nil ind f rest
  | Json.obj ((k, v) :: fs), ind, fuel, rest, hf, _ => by
      cases fuel with
      | zero => exact absurd hf (Nat.not_lt_zero _)
      | succ f =>
          rw [show dumpAux ind (Json.obj ((k, v) :: fs)) =
              '{' :: '\n' :: (pad (ind + 2) ++ (strQuote k ++ (':' :: ' ' ::
                (dumpAux (ind + 2) v ++ (dumpFields (ind + 2) fs ++
                  ('\n' :: (pad ind ++ ['}']))))))) from by rw [dumpAux]] at hf
          simp only [List.length_cons, List.length_append, pad,
            List.length_replicate, List.length_nil] at hf
          exact rv_obj_cons k v fs ind f rest
            (readPairs_dump k v fs (ind + 2) ind f rest (by omega))
termination_by v _ _ _ _ _ => sizeOf v

theorem readItems_dump : ∀ (x : Json) (xs : List Json) (ind ind0 fuel : Nat)
      (rest : List Char),
    (dumpAux ind x).length + (dumpItems ind xs).length + 1 < fuel →
    readItems fuel (dumpAux ind x ++ (dumpItems ind xs ++
        ('\n' :: (pad ind0 ++ (']' :: rest))))) = some (x :: xs, rest)
  | x, [], ind, ind0, fuel, rest, hb => by
      cases fuel with
      | zero => exact absurd hb (Nat.not_lt_zero _)
      | succ f =>
          rw [show dumpItems ind ([] : List Json) = [] from by rw [dumpItems]] at hb
          simp only [List.length_nil] at hb
          exact ri_last x ind ind0 f rest
            (readValue_dump x ind f ('\n' :: (pad ind0 ++ (']' :: rest))) (by omega)
              (numStop_head _ _ (by decide)))
  | x, y :: ys, ind, ind0, fuel, rest, hb => by
      cases fuel with
      | zero => exact absurd hb (Nat.not_lt_zero _)
      | succ f =>
          rw [show dumpItems ind (y :: ys) =
              ',' :: '\n' :: (pad ind ++ (dumpAux ind y ++ dumpItems ind ys)) from by
            rw [dumpItems]] at hb
          simp only [List.length_cons, List.length_append, pad,
            List.length_replicate] at hb
          exact ri_cons x y ys ind ind0 f rest
            (readValue_dump x ind f (',' :: '\n' :: (pad ind ++ (dumpAux ind y ++
                (dumpItems ind ys ++ ('\n' :: (pad ind0 ++ (']' :: rest)))))))
              (by omega) (numStop_head _ _ (by decide)))
            (readItems_dump y ys ind ind0 f rest (by omega))
termination_by x xs _ _ _ _ _ => sizeOf x + sizeOf xs

theorem readPairs_dump : ∀ (k : String) (v : Json) (fs : List (String × Json))
      (ind ind0 fuel : Nat) (rest : List Char),
    (dumpAux ind v).length + (dumpFields ind fs).length + 2 < fuel →
    readPairs fuel (strQuote k ++ (':' :: ' ' :: (dumpAux ind v ++ (dumpFields ind fs ++
        ('\n' :: (pad ind0 ++ ('}' :: rest))))))) = some ((k, v) :: fs, rest)
  | k, v, [], ind, ind0, fuel, rest, hb => by
      cases fuel with
      | zero => exact absurd hb (Nat.not_lt_zero _)
      | succ f =>
          rw [show dumpFields ind ([] : List (String × Json)) = [] from by
            rw [dumpFields]] at hb
          simp only [List.length_nil] at hb
          exact rp_last k v ind ind0 f rest
            (readValue_dump v ind f ('\n' :: (pad ind0 ++ ('}' :: rest))) (by omega)
              (numStop_head _ _ (by decide)))
  | k, v, (k2, v2) :: fs2, ind, ind0, fuel, rest, hb => by
      cases fuel with
      | zero => exact absurd hb (Nat.not_lt_zero _)
      | succ f =>
          rw [show dumpFields ind ((k2, v2) :: fs2) =
              ',' :: '\n' :: (pad ind ++ (strQuote k2 ++ (':' :: ' ' ::
                (dumpAux ind v2 ++ dumpFields ind fs2)))) from by rw [dumpFields]] at hb
          simp only [List.length_cons, List.length_append, pad,
            List.length_replicate] at hb
          exact rp_cons k v k2 v2 fs2 ind ind0 f rest
            (readValue_dump v ind f (',' :: '\n' :: (pad ind ++ (strQuote k2 ++
                (':' :: ' ' :: (dumpAux ind v2 ++ (dumpFields ind fs2 ++
                  ('\n' :: (pad ind0 ++ ('}' :: rest)))))))))
              (by omega) (numStop_head _ _ (by decide)))
            (readPairs_dump k2 v2 fs2 ind ind0 f rest (by omega))
termination_by _ v fs _ _ _ _ _ => sizeOf v + sizeOf fs

end

theorem parse_dumps (v : Json) : Json.parse (Json.dumps v) = some v := by
  have h2 : (Json.dumps v).data = dumpAux 0 v := rfl
  have hv := readValue_dump v 0 ((dumpAux 0 v).length + 1) [] (by omega) rfl
  rw [List.append_nil] at hv
  simp only [Json.parse, h2, hv]
  rfl

/-! ### Dispatcher result shape -/

theorem string_data_append (a b : String) : (a ++ b).data = a.data ++ b.data := by
  cases a
  cases b
  rfl

theorem jsonEndpointResult_text (r : HttpResult) :
    ∃ s, jsonEndpointResult r = [ContentBlock.text s] := by
  cases r with
  | connectError => exact ⟨_, rfl⟩
  | otherFailure msg => exact ⟨_, rfl⟩
  | response status body =>
      rw [jsonEndpointResult]
      by_cases h : isSuccessStatus status = true
      · rw [if_pos h]
        cases hp : Json.parse body with
        | some v => exact ⟨_, rfl⟩
        | none => exact ⟨_, rfl⟩
      · rw [if_neg h]
        exact ⟨_, rfl⟩

theorem screenshotEndpointResult_shape (r : HttpResult) :
    (∃ s, screenshotEndpointResult r = [ContentBlock.text s]) ∨
    (∃ status body, r = HttpResult.response status body ∧ isSuccessStatus status = true ∧
      screenshotEndpointResult r =
        [ContentBlock.image (base64Encode body) "image/png"]) := by
  cases r with
  | connectError => exact Or.inl ⟨_, rfl⟩
  | otherFailure msg => exact Or.inl ⟨_, rfl⟩
  | response status body =>
      rw [screenshotEndpointResult]
      by_cases h : isSuccessStatus status = true
      · rw [if_pos h]
        exact Or.inr ⟨status, body, rfl, h, rfl⟩
      · rw [if_neg h]
        exact Or.inl ⟨_, rfl⟩

theorem call_tool_get_state (arguments : ToolArguments)
    (backend : BackendRequest → HttpResult) :
    call_tool "devdash_get_state" arguments backend =
      (jsonEndpointResult (backend stateRequest), [stateRequest]) := by
  rw [call_tool, if_pos rfl]

theorem call_tool_get_warnings (arguments : ToolArguments)
    (backend : BackendRequest → HttpResult) :
    call_tool "devdash_get_warnings" arguments backend =
      (jsonEndpointResult (backend warningsRequest), [warningsRequest]) := by
  rw [call_tool, if_neg (by decide), if_pos rfl]

theorem call_tool_list_windows (arguments : ToolArguments)
    (backend : BackendRequest → HttpResult) :
    call_tool "devdash_list_windows" arguments backend =
      (jsonEndpointResult (backend windowsRequest), [windowsRequest]) := by
  rw [call_tool, if_neg (by decide), if_neg (by decide), if_pos rfl]

theorem call_tool_get_logs (arguments : ToolArguments)
    (backend : BackendRequest → HttpResult) :
    call_tool "devdash_get_logs" arguments backend =
      (jsonEndpointResult (backend (logsRequest arguments)), [logsRequest arguments]) := by
  rw [call_tool, if_neg (by decide), if_neg (by decide), if_neg (by decide), if_pos rfl]

theorem call_tool_screenshot_none (arguments : ToolArguments)
    (backend : BackendRequest → HttpResult) (hw : arguments.window = none) :
    call_tool "devdash_screenshot" arguments backend =
      ([ContentBlock.text windowRequiredText], []) := by
  rw [call_tool, if_neg (by decide), if_neg (by decide), if_neg (by decide),
    if_neg (by decide), if_pos rfl, hw]

theorem call_tool_screenshot_some (arguments : ToolArguments)
    (backend : BackendRequest → HttpResult) (w : String) (hw : arguments.window = some w) :
    call_tool "devdash_screenshot" arguments backend =
      (if w = "" then ([ContentBlock.text windowRequiredText], [])
       else (screenshotEndpointResult (backend (screenshotRequest w)),
         [screenshotRequest w])) := by
  rw [call_tool, if_neg (by decide), if_neg (by decide), if_neg (by decide),
    if_neg (by decide), if_pos rfl, hw]

theorem call_tool_unknown (name : String) (arguments : ToolArguments)
    (backend : BackendRequest → HttpResult)
    (h1 : ¬name = "devdash_get_state") (h2 : ¬name = "devdash_get_warnings")
    (h3 : ¬name = "devdash_list_windows") (h4 : ¬name = "devdash_get_logs")
    (h5 : ¬name = "devdash_screenshot") :
    call_tool name arguments backend =
      ([ContentBlock.text ("Unknown tool: " ++ name)], []) := by
  rw [call_tool, if_neg h1, if_neg h2, if_neg h3, if_neg h4, if_neg h5]

theorem call_tool_block_shape (name : String) (arguments : ToolArguments)
    (backend : BackendRequest → HttpResult) :
    ∃ cb, (call_tool name arguments backend).1 = [cb] ∧
      ((∃ s, cb = ContentBlock.text s) ∨
        (name = "devdash_screenshot" ∧ ∃ w status body,
          arguments.window = some w ∧ ¬w = "" ∧
          backend (screenshotRequest w) = HttpResult.response status body ∧
          isSuccessStatus status = true)) := by
  by_cases h1 : name = "devdash_get_state"
  · subst h1
    obtain ⟨s, hs⟩ := jsonEndpointResult_text (backend stateRequest)
    exact ⟨ContentBlock.text s, by rw [call_tool_get_state, hs], Or.inl ⟨s, rfl⟩⟩
  by_cases h2 : name = "devdash_get_warnings"
  · subst h2
    obtain ⟨s, hs⟩ := jsonEndpointResult_text (backend warningsRequest)
    exact ⟨ContentBlock.text s, by rw [call_tool_get_warnings, hs], Or.inl ⟨s, rfl⟩⟩
  by_cases h3 : name = "devdash_list_windows"
  · subst h3
    obtain ⟨s, hs⟩ := jsonEndpointResult_text (backend windowsRequest)
    exact ⟨ContentBlock.text s, by rw [call_tool_list_windows, hs], Or.inl ⟨s, rfl⟩⟩
  by_cases h4 : name = "devdash_get_logs"
  · subst h4
    obtain ⟨s, hs⟩ := jsonEndpointResult_text (backend (logsRequest arguments))
    exact ⟨ContentBlock.text s, by rw [call_tool_get_logs, hs], Or.inl ⟨s, rfl⟩⟩
  by_cases h5 : name = "devdash_screenshot"
  · subst h5
    cases hw : arguments.window with
    | none =>
        exact ⟨ContentBlock.text windowRequiredText,
          by rw [call_tool_screenshot_none arguments backend hw], Or.inl ⟨_, rfl⟩⟩
    | some w =>
        by_cases hww : w = ""
        · exact ⟨ContentBlock.text windowRequiredText,
            by rw [call_tool_screenshot_some arguments backend w hw, if_pos hww],
            Or.inl ⟨_, rfl⟩⟩
        · rcases screenshotEndpointResult_shape (backend (screenshotRequest w)) with
            ⟨s, hs⟩ | ⟨status, body, hr, hst, hs⟩
          · exact ⟨ContentBlock.text s,
              by rw [call_tool_screenshot_some arguments backend w hw, if_neg hww]
                 exact hs,
              Or.inl ⟨s, rfl⟩⟩
          · exact ⟨ContentBlock.image (base64Encode body) "image/png",
              by rw [call_tool_screenshot_some arguments backend w hw, if_neg hww]
                 exact hs,
              Or.inr ⟨rfl, w, status, body, rfl, hww, hr, hst⟩⟩
  exact ⟨ContentBlock.text ("Unknown tool: " ++ name),
    by rw [call_tool_unknown name arguments backend h1 h2 h3 h4 h5], Or.inl ⟨_, rfl⟩⟩

/-! ### The claims -/

/-- C1: for every tool name (known or unknown) and every argument mapping,
`call_tool` returns a non-empty (in fact singleton) sequence of content
blocks and never propagates a fault: the single block is a text block in
every case except the screenshot happy path (window present and non-empty,
backend answered 2xx), the only branch that produces an image.  Every
failure outcome of the backend exchange is a value of `HttpResult`, so
every failure is converted into the single text block this theorem
exhibits. -/
theorem C1_call_tool_total_single_block (name : String) (arguments : ToolArguments)
    (backend : BackendRequest → HttpResult) :
    ∃ cb, (call_tool name arguments backend).1 = [cb] ∧
      ((∃ s, cb = ContentBlock.text s) ∨
        (name = "devdash_screenshot" ∧ ∃ w status body,
          arguments.window = some w ∧ ¬w = "" ∧
          backend (screenshotRequest w) = HttpResult.response status body ∧
          isSuccessStatus status = true)) :=
  call_tool_block_shape name arguments backend

/-- C9: for every tool name, argument mapping and backend behaviour, the
block sequence `call_tool` returns has length exactly one — every success
branch and every error branch returns a single content block. -/
theorem C9_call_tool_result_length_one (name : String) (arguments : ToolArguments)
    (backend : BackendRequest → HttpResult) :
    (call_tool name arguments backend).1.length = 1 := by
  obtain ⟨cb, hcb, _⟩ := call_tool_block_shape name arguments backend
  rw [hcb]
  rfl

/-- C2: dispatching `devdash_get_logs` with the empty argument mapping
issues one request to `/api/logs` whose literal query-parameter list is
empty, and that request is equivalent to `count=100&level=info` with no
`category` parameter: completing each absent parameter with its
schema-declared default (`effectiveLogsQuery`) yields exactly `count=100`
and `level=info`, while `category` (default `""`, meaning "no filter")
stays absent; an explicitly empty `category` string is likewise omitted
from the outgoing request. -/
theorem C2_get_logs_empty_arguments_defaults :
    (∀ backend, (call_tool "devdash_get_logs" noArguments backend).2 =
      [{ url := DEVTOOLS_BASE_URL ++ "/api/logs", params := [] }]) ∧
    logsParams noArguments = [] ∧
    effectiveLogsQuery (logsParams noArguments) "count" = some "100" ∧
    effectiveLogsQuery (logsParams noArguments) "level" = some "info" ∧
    effectiveLogsQuery (logsParams noArguments) "category" = none ∧
    lookupParam (logsParams { noArguments with category := some "" }) "category" = none := by
  refine ⟨fun backend => ?_, rfl, by decide, by decide, by decide, rfl⟩
  rw [call_tool_get_logs]
  rfl

/-- C3 counterexample: the tool names of the catalog are not
`get_state, get_warnings, list_windows, get_logs, screenshot` in that
order — every name carries the `devdash_` prefix and the screenshot tool
is declared third, not last. -/
theorem C3_catalog_names_counterexample :
    ¬(list_tools.map Tool.name =
      ["get_state", "get_warnings", "list_windows", "get_logs", "screenshot"]) := by
  decide

/-- C3 amended: `list_tools` (a pure constant, hence the same ordered
sequence on every call) holds exactly five tool definitions with the
unique names `devdash_get_state`, `devdash_get_warnings`,
`devdash_screenshot`, `devdash_list_windows`, `devdash_get_logs` in the
source's declaration order, and the dispatcher maps each tool to its fixed
backend route. -/
theorem C3_catalog_names_routes :
    list_tools.map Tool.name =
      ["devdash_get_state", "devdash_get_warnings", "devdash_screenshot",
        "devdash_list_windows", "devdash_get_logs"] ∧
    list_tools.length = 5 ∧
    (list_tools.map Tool.name).Nodup ∧
    requestUrlsOf "devdash_get_state" noArguments =
      [DEVTOOLS_BASE_URL ++ "/api/state"] ∧
    requestUrlsOf "devdash_get_warnings" noArguments =
      [DEVTOOLS_BASE_URL ++ "/api/warnings"] ∧
    requestUrlsOf "devdash_list_windows" noArguments =
      [DEVTOOLS_BASE_URL ++ "/api/windows"] ∧
    requestUrlsOf "devdash_get_logs" noArguments =
      [DEVTOOLS_BASE_URL ++ "/api/logs"] ∧
    requestUrlsOf "devdash_screenshot" { noArguments with window := some "cluster" } =
      [DEVTOOLS_BASE_URL ++ "/api/screenshot"] := by
  exact ⟨by decide, by decide, by decide, rfl, rfl, rfl, rfl, rfl⟩

/-- C4: for `devdash_get_logs`, a supplied `count` above 1000 is silently
clamped: the dispatch still issues its one request (never rejects), and
the outgoing `count` parameter is the string `1000`. -/
theorem C4_get_logs_count_clamped (c : Int) (arguments : ToolArguments)
    (backend : BackendRequest → HttpResult) (hc : 1000 < c) :
    (call_tool "devdash_get_logs" { arguments with count := some c } backend).2 =
      [logsRequest { arguments with count := some c }] ∧
    lookupParam (logsParams { arguments with count := some c }) "count" = some "1000" := by
  constructor
  · rw [call_tool_get_logs]
  · simp only [logsParams]
    rw [show min c 1000 = 1000 from min_eq_right (le_of_lt hc)]
    rfl

/-- C4 witness: dispatching `devdash_get_logs` with `count = 5000` results
in an outgoing request whose `count` parameter is `1000`. -/
theorem C4_get_logs_count_clamped_witness :
    (1000 : Int) < 5000 ∧
    ((call_tool "devdash_get_logs" { noArguments with count := some 5000 }
        (fun _ => HttpResult.connectError)).2 =
      [logsRequest { noArguments with count := some 5000 }] ∧
    lookupParam (logsParams { noArguments with count := some 5000 }) "count" =
      some "1000") :=
  ⟨by decide, C4_get_logs_count_clamped 5000 noArguments
    (fun _ => HttpResult.connectError) (by decide)⟩

/-- C10: for `devdash_get_logs`, a supplied `count` of at most 1000 —
including zero and negative integers — is forwarded to the backend
unchanged: `min(count, 1000)` imposes an upper bound only, with no lower
bound applied at the bridge. -/
theorem C10_get_logs_count_low_passthrough (c : Int) (arguments : ToolArguments)
    (backend : BackendRequest → HttpResult) (hc : c ≤ 1000) :
    (call_tool "devdash_get_logs" { arguments with count := some c } backend).2 =
      [logsRequest { arguments with count := some c }] ∧
    lookupParam (logsParams { arguments with count := some c }) "count" =
      some (toString c) := by
  constructor
  · rw [call_tool_get_logs]
  · simp only [logsParams]
    rw [show min c 1000 = c from min_eq_left hc]
    rfl

/-- C10 witness: counts `0` and `-7` both pass through unclamped. -/
theorem C10_get_logs_count_low_passthrough_witness :
    ((0 : Int) ≤ 1000 ∧
      lookupParam (logsParams { noArguments with count := some 0 }) "count" =
        some "0") ∧
    ((-7 : Int) ≤ 1000 ∧
      lookupParam (logsParams { noArguments with count := some (-7) }) "count" =
        some "-7") :=
  ⟨⟨by decide, (C10_get_logs_count_low_passthrough 0 noArguments
      (fun _ => HttpResult.connectError) (by decide)).2⟩,
   ⟨by decide, (C10_get_logs_count_low_passthrough (-7) noArguments
      (fun _ => HttpResult.connectError) (by decide)).2⟩⟩

/-- C5: dispatching `devdash_screenshot` with a missing or empty `window`
argument returns exactly one text block reading
`Error: [window] parameter is required` (with the word window in single
quotes), and issues no backend request. -/
theorem C5_screenshot_window_required (arguments : ToolArguments)
    (backend : BackendRequest → HttpResult)
    (h : arguments.window = none ∨ arguments.window = some "") :
    (call_tool "devdash_screenshot" arguments backend).1 =
      [ContentBlock.text "Error: \x27window\x27 parameter is required"] ∧
    (call_tool "devdash_screenshot" arguments backend).2 = [] := by
  rcases h with h | h
  · rw [call_tool_screenshot_none arguments backend h]
    exact ⟨rfl, rfl⟩
  · rw [call_tool_screenshot_some arguments backend "" h, if_pos rfl]
    exact ⟨rfl, rfl⟩

/-- C5 witness: the empty argument mapping has no `window`, so the
dispatch short-circuits with the required-parameter message and an empty
request list. -/
theorem C5_screenshot_window_required_witness :
    (noArguments.window = none ∨ noArguments.window = some "") ∧
    ((call_tool "devdash_screenshot" noArguments
        (fun _ => HttpResult.connectError)).1 =
      [ContentBlock.text "Error: \x27window\x27 parameter is required"] ∧
    (call_tool "devdash_screenshot" noArguments
        (fun _ => HttpResult.connectError)).2 = []) :=
  ⟨Or.inl rfl, C5_screenshot_window_required noArguments
    (fun _ => HttpResult.connectError) (Or.inl rfl)⟩

/-- C6: for every JSON-returning operation, given a 2xx backend response
whose body parses as JSON value `v`, the dispatch result is a single text
block holding `json.dumps(v, indent=2)`, and parsing that text back yields
`v` again — the parse/re-serialize round trip is semantically lossless
(only whitespace/formatting changes, with 2-space indentation). -/
theorem C6_json_roundtrip (name : String) (arguments : ToolArguments) (status : Nat)
    (body : String) (v : Json) (backend : BackendRequest → HttpResult)
    (hmem : name ∈ jsonToolNames)
    (hb : ∀ r, backend r = HttpResult.response status body)
    (hst : isSuccessStatus status = true)
    (hp : Json.parse body = some v) :
    (call_tool name arguments backend).1 = [ContentBlock.text (Json.dumps v)] ∧
    Json.parse (Json.dumps v) = some v := by
  have hjr : ∀ r, jsonEndpointResult (backend r) =
      [ContentBlock.text (Json.dumps v)] := by
    intro r
    rw [hb r, jsonEndpointResult, if_pos hst, hp]
  refine ⟨?_, parse_dumps v⟩
  simp only [jsonToolNames, List.mem_cons, List.not_mem_nil, or_false] at hmem
  rcases hmem with rfl | rfl | rfl | rfl
  · rw [call_tool_get_state, hjr]
  · rw [call_tool_get_warnings, hjr]
  · rw [call_tool_list_windows, hjr]
  · rw [call_tool_get_logs, hjr]

/-- C6 witness: a 200 response with body `{"rpm": 3000}` on
`devdash_get_state` round-trips. -/
theorem C6_json_roundtrip_witness :
    ("devdash_get_state" ∈ jsonToolNames) ∧
    isSuccessStatus 200 = true ∧
    Json.parse "\x7b\"rpm\": 3000\x7d" = some (Json.obj [("rpm", Json.num 3000)]) ∧
    ((call_tool "devdash_get_state" noArguments
        (fun _ => HttpResult.response 200 "\x7b\"rpm\": 3000\x7d")).1 =
      [ContentBlock.text (Json.dumps (Json.obj [("rpm", Json.num 3000)]))] ∧
    Json.parse (Json.dumps (Json.obj [("rpm", Json.num 3000)])) =
      some (Json.obj [("rpm", Json.num 3000)])) :=
  ⟨by decide, rfl, rfl,
    C6_json_roundtrip "devdash_get_state" noArguments 200 "\x7b\"rpm\": 3000\x7d"
      (Json.obj [("rpm", Json.num 3000)])
      (fun _ => HttpResult.response 200 "\x7b\"rpm\": 3000\x7d")
      (by decide) (fun r => rfl) rfl rfl⟩

/-- C7: for every tool whose dispatch reaches the network, a backend
response with a non-2xx status yields a single text block
`Error: HTTP <status> - <body>`, which contains both the numeric status
code and the raw response body verbatim. -/
theorem C7_non2xx_error_block (name : String) (arguments : ToolArguments) (status : Nat)
    (body : String) (backend : BackendRequest → HttpResult)
    (hb : ∀ r, backend r = HttpResult.response status body)
    (hst : isSuccessStatus status = false)
    (hne : (call_tool name arguments backend).2 ≠ []) :
    (call_tool name arguments backend).1 =
      [ContentBlock.text ("Error: HTTP " ++ toString status ++ " - " ++ body)] ∧
    containsSeg ("Error: HTTP " ++ toString status ++ " - " ++ body).data
      (toString status).data ∧
    containsSeg ("Error: HTTP " ++ toString status ++ " - " ++ body).data body.data := by
  refine ⟨?_, ?_, ?_⟩
  · have hjson : jsonEndpointResult (HttpResult.response status body) =
        [ContentBlock.text ("Error: HTTP " ++ toString status ++ " - " ++ body)] := by
      rw [jsonEndpointResult, if_neg (by simp [hst])]
    have hshot : screenshotEndpointResult (HttpResult.response status body) =
        [ContentBlock.text ("Error: HTTP " ++ toString status ++ " - " ++ body)] := by
      rw [screenshotEndpointResult, if_neg (by simp [hst])]
    by_cases h1 : name = "devdash_get_state"
    · subst h1; rw [call_tool_get_state, hb, hjson]
    by_cases h2 : name = "devdash_get_warnings"
    · subst h2; rw [call_tool_get_warnings, hb, hjson]
    by_cases h3 : name = "devdash_list_windows"
    · subst h3; rw [call_tool_list_windows, hb, hjson]
    by_cases h4 : name = "devdash_get_logs"
    · subst h4; rw [call_tool_get_logs, hb, hjson]
    by_cases h5 : name = "devdash_screenshot"
    · subst h5
      cases hw : arguments.window with
      | none =>
          rw [call_tool_screenshot_none arguments backend hw] at hne
          exact absurd rfl hne
      | some w =>
          by_cases hww : w = ""
          · rw [call_tool_screenshot_some arguments backend w hw, if_pos hww] at hne
            exact absurd rfl hne
          · rw [call_tool_screenshot_some arguments backend w hw, if_neg hww, hb, hshot]
    · rw [call_tool_unknown name arguments backend h1 h2 h3 h4 h5] at hne
      exact absurd rfl hne
  · exact ⟨"Error: HTTP ".data, (" - " ++ body).data,
      by simp [string_data_append, List.append_assoc]⟩
  · exact ⟨("Error: HTTP " ++ toString status ++ " - ").data, [],
      by simp [string_data_append, List.append_assoc]⟩

/-- C7 witness: a 404 with body `not found` on `devdash_list_windows`
yields one text block containing both `404` and `not found`. -/
theorem C7_non2xx_error_block_witness :
    isSuccessStatus 404 = false ∧
    (call_tool "devdash_list_windows" noArguments
        (fun _ => HttpResult.response 404 "not found")).2 ≠ [] ∧
    ((call_tool "devdash_list_windows" noArguments
        (fun _ => HttpResult.response 404 "not found")).1 =
      [ContentBlock.text ("Error: HTTP " ++ toString 404 ++ " - " ++ "not found")] ∧
    containsSeg ("Error: HTTP " ++ toString 404 ++ " - " ++ "not found").data
      ("404" : String).data ∧
    containsSeg ("Error: HTTP " ++ toString 404 ++ " - " ++ "not found").data
      ("not found" : String).data) :=
  ⟨rfl, by decide,
    C7_non2xx_error_block "devdash_list_windows" noArguments 404 "not found"
      (fun _ => HttpResult.response 404 "not found") (fun r => rfl) rfl (by decide)⟩

/-- C8: when the backend refuses the connection, every dispatch that
reaches the network returns exactly one text block with the dedicated
message, which contains the substring `Cannot connect`. -/
theorem C8_connect_refused (name : String) (arguments : ToolArguments)
    (backend : BackendRequest → HttpResult)
    (hb : ∀ r, backend r = HttpResult.connectError)
    (hne : (call_tool name arguments backend).2 ≠ []) :
    (call_tool name arguments backend).1 = [ContentBlock.text cannotConnectText] ∧
    containsSeg cannotConnectText.data ("Cannot connect" : String).data := by
  refine ⟨?_, ⟨("Error: " : String).data,
    (" to DevDash. Make sure DevDash is running with DevTools server enabled." :
      String).data, by decide⟩⟩
  by_cases h1 : name = "devdash_get_state"
  · subst h1; rw [call_tool_get_state, hb]; rfl
  by_cases h2 : name = "devdash_get_warnings"
  · subst h2; rw [call_tool_get_warnings, hb]; rfl
  by_cases h3 : name = "devdash_list_windows"
  · subst h3; rw [call_tool_list_windows, hb]; rfl
  by_cases h4 : name = "devdash_get_logs"
  · subst h4; rw [call_tool_get_logs, hb]; rfl
  by_cases h5 : name = "devdash_screenshot"
  · subst h5
    cases hw : arguments.window with
    | none =>
        rw [call_tool_screenshot_none arguments backend hw] at hne
        exact absurd rfl hne
    | some w =>
        by_cases hww : w = ""
        · rw [call_tool_screenshot_some arguments backend w hw, if_pos hww] at hne
          exact absurd rfl hne
        · rw [call_tool_screenshot_some arguments backend w hw, if_neg hww, hb]
          rfl
  · rw [call_tool_unknown name arguments backend h1 h2 h3 h4 h5] at hne
    exact absurd rfl hne

/-- C8 witness: a connection-refused backend on `devdash_get_state`. -/
theorem C8_connect_refused_witness :
    (call_tool "devdash_get_state" noArguments (fun _ => HttpResult.connectError)).2 ≠
      [] ∧
    ((call_tool "devdash_get_state" noArguments
        (fun _ => HttpResult.connectError)).1 =
      [ContentBlock.text cannotConnectText] ∧
    containsSeg cannotConnectText.data ("Cannot connect" : String).data) :=
  ⟨by decide,
    C8_connect_refused "devdash_get_state" noArguments
      (fun _ => HttpResult.connectError) (fun r => rfl) (by decide)⟩
